import Mathlib

/-!
# JSON-RPC request builder and unit converter of `eth/web3.c`

A shallow embedding of the bounded-buffer request builder and of
`eth_convert`.  The machine state is a flat byte memory together with the
`web3_ctx_t` record; every function of the source that takes
`web3_ctx_t *web3` becomes a function from a state to a return code and a new
state, and `eth_convert` becomes a function from a memory to a return code and
a new memory.

Conventions of the embedding:

* `size_t` is 64 bits wide; a subtraction of two `size_t` values wraps.
* text is a list of characters, one character per byte; `NUL` is the byte 0.
* a format and its arguments are represented by the complete formatted text;
  the length returned by `vsnprintf` is the length of that text (lengths are
  assumed to fit in an `int`).
* a byte blob passed as pointer and length is a list of bytes, the length
  being the length of the list; the null pointer is `none`.
* the helpers `bintohex_nonull` and `tostring256` and the other primitives of
  the 256-bit integer library live outside `web3.c`; they are modelled from
  the contracts the specification gives for them.  A 256-bit integer is a
  natural number.
* the flag constants of `web3.h` are parameters (`tx_flag_bits`); a unit of
  `enum ETH_UNIT` is its ordinal.
* the assertions of the source are preconditions; the embedding does not
  model their failure.

The file first gives the embedding, then the texts the specification
describes, then the lemmas and the theorems about the embedding.
-/

set_option maxRecDepth 100000

namespace Web3

/-! ## Memory -/

/-- Flat byte memory, indexed by address. -/
abbrev Memory := Nat → Char

/-- The zero byte. -/
def NUL : Char := Char.ofNat 0

/-- Number of values of `size_t`. -/
def SIZE_MOD : Nat := 2 ^ 64

/-- Subtraction of `size_t` values, wrapping like unsigned arithmetic in C. -/
def size_sub (a b : Nat) : Nat := (a + (SIZE_MOD - b % SIZE_MOD)) % SIZE_MOD

/-- Addition of `size_t` values, wrapping like unsigned arithmetic in C. -/
def size_add (a b : Nat) : Nat := (a + b) % SIZE_MOD

/-- Store the bytes of `l` at the addresses `dst, dst + 1, ...`. -/
def write (m : Memory) (dst : Nat) (l : List Char) : Memory :=
  fun a => if dst ≤ a ∧ a < dst + l.length then l.getD (a - dst) NUL else m a

/-- The `n` bytes found at the addresses `a, a + 1, ...`. -/
def read (m : Memory) (a n : Nat) : List Char :=
  (List.range n).map (fun i => m (a + i))

/-- The library call `memset(dst, 0, n)`. -/
def memset0 (m : Memory) (dst n : Nat) : Memory :=
  fun a => if dst ≤ a ∧ a < dst + n then NUL else m a

/-- The library call `strlen(s)`: the number of bytes before the first zero
byte, searched over at most `fuel` bytes. -/
def strlen (m : Memory) : Nat → Nat → Nat
  | _, 0 => 0
  | s, fuel + 1 => if m s = NUL then 0 else 1 + strlen m (s + 1) fuel

/-- The library call `vsnprintf(dst, n, fmt, ap)` where `text` is the complete
formatted text: at most `n - 1` characters are stored, followed by a zero byte;
nothing is stored when `n = 0`.  The result is the length of the complete
text. -/
def vsnprintf (m : Memory) (dst n : Nat) (text : List Char) : Memory × Nat :=
  if n = 0 then (m, text.length)
  else (write m dst (text.take (n - 1) ++ [NUL]), text.length)

/-! ## Data model -/

/-- The record `web3_ctx_t`: buffer address, capacity, cursor, request id. -/
structure web3_ctx_t where
  buf : Nat
  buf_size : Nat
  buf_used : Nat
  req_id : Int

/-- Machine state: the memory and the context record. -/
structure State where
  mem : Memory
  web3 : web3_ctx_t

/-- The type `address_t`: 20 bytes. -/
structure address_t where
  a : List Nat
  size : a.length = 20

/-- The type `tx_hash_t`: 32 bytes. -/
structure tx_hash_t where
  h : List Nat
  size : h.length = 32

/-- The type `transaction_t` (`to_` is the field `to`).  The pointer `data` is
`none` when it is null; otherwise the list holds the bytes found at the
pointer, of which the first `data_len` form the payload (the pointer is taken
to refer to at least `data_len` bytes). -/
structure transaction_t where
  to_ : address_t
  gas_limit : Nat
  gas_price : Nat
  value : Nat
  data : Option (List Nat)
  data_len : Nat

/-- The flag constants `TX_NO_FROM` ... `TX_NO_DATA` of `web3.h`, taken as
parameters. -/
structure tx_flag_bits where
  TX_NO_FROM : Nat
  TX_NO_GAS : Nat
  TX_NO_GASPRICE : Nat
  TX_NO_VALUE : Nat
  TX_NO_DATA : Nat

/-! ## Formatting -/

/-- The conversion `%d` of an `int`. -/
def fmt_d (i : Int) : List Char :=
  if i < 0 then '-' :: Nat.toDigits 10 i.natAbs else Nat.toDigits 10 i.toNat

/-- The conversion `%x`: it formats an `unsigned int`, that is the low 32 bits
of the argument, in lowercase hexadecimal without leading zeros. -/
def fmt_x (val : Nat) : List Char := Nat.toDigits 16 (val % 2 ^ 32)

/-- The format `JSONRPC_HEADER` applied to a request id and a method name. -/
def JSONRPC_HEADER (req_id : Int) (func : String) : List Char :=
  "\x7b\"jsonrpc\":\"2.0\",\"id\":".toList ++ fmt_d req_id ++
    ",\"method\":\"".toList ++ func.toList ++ "\",\"params\":[".toList

/-- The text `JSONRPC_TERMINATOR`. -/
def JSONRPC_TERMINATOR : List Char := "]\x7d".toList

/-- Two lowercase hexadecimal digits of a byte, high nibble first. -/
def hexbyte (b : Nat) : List Char :=
  [Nat.digitChar (b / 16 % 16), Nat.digitChar (b % 16)]

/-- Hexadecimal text of a byte sequence. -/
def hexstr (bytes : List Nat) : List Char := bytes.flatMap hexbyte

/-- Modelled from the spec: the helper `bintohex_nonull` of
`helpers/hextobin.h`, the binary-to-hex encoder without terminating zero:
`encode(bytes, outBuf, outCap) -> bytesWritten | Overflow`.  It stores two
hexadecimal characters per input byte and returns their number; it reports
insufficient space (a negative result) when the output capacity is below
that. -/
def bintohex_nonull (m : Memory) (inp : List Nat) (outp outplen : Nat) : Memory × Int :=
  if outplen < inp.length * 2 then (m, -1)
  else (write m outp (hexstr inp), ((inp.length * 2 : Nat) : Int))

/-- Modelled from the spec: the primitive `tostring256(value, base, out,
outCap) -> bool` of the 256-bit integer library: the rendering of the value in
the given base, stored with a terminating zero byte; `false` when the text and
its terminator do not fit. -/
def tostring256 (m : Memory) (val base out outLength : Nat) : Memory × Bool :=
  if outLength < (Nat.toDigits base val).length + 1 then (m, false)
  else (write m out (Nat.toDigits base val ++ [NUL]), true)

/-! ## The buffer writer and the typed encoders -/

/-- The function `__web3_printbuf`, `text` being the complete formatted
text of the format and its arguments. -/
def __web3_printbuf (st : State) (text : List Char) : Int × State :=
  let w := st.web3
  let r := vsnprintf st.mem (w.buf + w.buf_used) (size_sub w.buf_size w.buf_used) text
  let size := r.2
  if size ≥ w.buf_size then (-1, { st with mem := r.1 })
  else (0, { mem := r.1, web3 := { w with buf_used := size_add w.buf_used size } })

/-- The function `__web3_printhex`: the format is a quote, `0x`, `%x`, a
quote. -/
def __web3_printhex (st : State) (val : Nat) : Int × State :=
  __web3_printbuf st ("\"0x".toList ++ fmt_x val ++ "\"".toList)

/-- The function `__web3_printdata`. -/
def __web3_printdata (st : State) (buf : List Nat) : Int × State :=
  let buf_size := buf.length
  if buf_size ≥ size_sub st.web3.buf_size st.web3.buf_used then (-1, st)
  else
    let p := __web3_printbuf st "\"0x".toList
    if p.1 < 0 then (p.1, p.2)
    else
      let st1 := p.2
      let h := bintohex_nonull st1.mem buf (st1.web3.buf + st1.web3.buf_used)
        (size_sub st1.web3.buf_size st1.web3.buf_used)
      if h.2 < 0 then (-1, { st1 with mem := h.1 })
      else
        let st2 : State :=
          { mem := h.1,
            web3 := { st1.web3 with buf_used := size_add st1.web3.buf_used h.2.toNat } }
        let q := __web3_printbuf st2 "\"".toList
        if q.1 < 0 then (q.1, q.2) else (0, q.2)

/-- The function `__web3_printaddr`. -/
def __web3_printaddr (st : State) (addr : address_t) : Int × State :=
  let p := __web3_printbuf st "\"0x".toList
  if p.1 < 0 then (p.1, p.2)
  else
    let st1 := p.2
    let h := bintohex_nonull st1.mem addr.a (st1.web3.buf + st1.web3.buf_used)
      (size_sub st1.web3.buf_size st1.web3.buf_used)
    if h.2 < 0 then (-1, { st1 with mem := h.1 })
    else if h.2 < 40 then (-1, { st1 with mem := h.1 })
    else
      let st2 : State :=
        { mem := h.1,
          web3 := { st1.web3 with buf_used := size_add st1.web3.buf_used h.2.toNat } }
      let q := __web3_printbuf st2 "\"".toList
      if q.1 < 0 then (q.1, q.2) else (0, q.2)

/-- The function `__web3_printuint256`. -/
def __web3_printuint256 (st : State) (val : Nat) : Int × State :=
  let p := __web3_printbuf st "\"0x".toList
  if p.1 < 0 then (p.1, p.2)
  else
    let st1 := p.2
    let t := tostring256 st1.mem val 16 (st1.web3.buf + st1.web3.buf_used)
      (size_sub st1.web3.buf_size st1.web3.buf_used)
    if t.2 = false then (-1, { st1 with mem := t.1 })
    else
      let st2 : State :=
        { mem := t.1,
          web3 := { st1.web3 with
            buf_used := size_add st1.web3.buf_used
              (strlen t.1 (st1.web3.buf + st1.web3.buf_used) SIZE_MOD) } }
      let q := __web3_printbuf st2 "\"".toList
      if q.1 < 0 then (q.1, q.2) else (0, q.2)

/-- The early exit `if (step < 0) { return -1; }` followed by the rest of the
function body. -/
def orFail (p : Int × State) (k : State → Int × State) : Int × State :=
  if p.1 < 0 then (-1, p.2) else k p.2

/-- The function `__web3_printtxparam`. -/
def __web3_printtxparam (F : tx_flag_bits) (st : State) (sender : address_t)
    (tx : transaction_t) (tx_flags : Nat) : Int × State :=
  orFail (__web3_printbuf st "\x7b".toList) fun st =>
  orFail (__web3_printbuf st "\"to\":".toList) fun st =>
  orFail (__web3_printaddr st tx.to_) fun st =>
  orFail (if tx_flags &&& F.TX_NO_FROM = 0 then
      orFail (__web3_printbuf st ",\"from\":".toList) fun st =>
      orFail (__web3_printaddr st sender) fun st => (0, st)
    else (0, st)) fun st =>
  orFail (if tx_flags &&& F.TX_NO_GAS = 0 then
      orFail (__web3_printbuf st ",\"gas\":".toList) fun st =>
      orFail (__web3_printhex st tx.gas_limit) fun st => (0, st)
    else (0, st)) fun st =>
  orFail (if tx_flags &&& F.TX_NO_GASPRICE = 0 then
      orFail (__web3_printbuf st ",\"gasPrice\":".toList) fun st =>
      orFail (__web3_printhex st tx.gas_price) fun st => (0, st)
    else (0, st)) fun st =>
  orFail (if tx_flags &&& F.TX_NO_VALUE = 0 then
      orFail (__web3_printbuf st ",\"value\":".toList) fun st =>
      orFail (__web3_printuint256 st tx.value) fun st => (0, st)
    else (0, st)) fun st =>
  orFail (match tx.data with
    | none => (0, st)
    | some d =>
      if tx.data_len ≠ 0 ∧ tx_flags &&& F.TX_NO_DATA = 0 then
        orFail (__web3_printbuf st ",\"data\":".toList) fun st =>
        orFail (__web3_printdata st (d.take tx.data_len)) fun st => (0, st)
      else (0, st)) fun st =>
  orFail (__web3_printbuf st "\x7d".toList) fun st =>
  orFail (__web3_printbuf st ",\"latest\"".toList) fun st => (0, st)

/-! ## Initialisation and the request builders -/

/-- The function `__web3_resetbuf`; its assertions (`buf_size > 0`, non-null
pointers) are preconditions of the callers. -/
def __web3_resetbuf (st : State) : State :=
  { mem := memset0 st.mem st.web3.buf st.web3.buf_size,
    web3 := { st.web3 with buf_used := 0 } }

/-- The function `web3_init`, applied to a memory. -/
def web3_init (m : Memory) (buf buf_size : Nat) : State :=
  __web3_resetbuf
    { mem := m, web3 := { buf := buf, buf_size := buf_size, buf_used := 0, req_id := 0 } }

/-- The macro `WEB3_PREAMBLE` inside the function named `func`, followed by
the rest of the body. -/
def WEB3_PREAMBLE (func : String) (st : State) (k : State → Int × State) : Int × State :=
  let st0 := __web3_resetbuf st
  orFail (__web3_printbuf st0 (JSONRPC_HEADER st0.web3.req_id func)) k

/-- The macro `WEB3_TERMINATOR` followed by `return 0`. -/
def WEB3_TERMINATOR (st : State) : Int × State :=
  orFail (__web3_printbuf st JSONRPC_TERMINATOR) fun st => (0, st)

/-- The function `eth_getTransactionCount`. -/
def eth_getTransactionCount (st : State) (addr : address_t) : Int × State :=
  WEB3_PREAMBLE "eth_getTransactionCount" st fun st =>
  orFail (__web3_printaddr st addr) fun st =>
  orFail (__web3_printbuf st ",\"latest\"".toList) fun st =>
  WEB3_TERMINATOR st

/-- The function `eth_blockNumber`. -/
def eth_blockNumber (st : State) : Int × State :=
  WEB3_PREAMBLE "eth_blockNumber" st fun st =>
  WEB3_TERMINATOR st

/-- The function `eth_sendRawTransaction`. -/
def eth_sendRawTransaction (st : State) (data : List Nat) : Int × State :=
  WEB3_PREAMBLE "eth_sendRawTransaction" st fun st =>
  orFail (__web3_printdata st data) fun st =>
  WEB3_TERMINATOR st

/-- The function `eth_getBalance`. -/
def eth_getBalance (st : State) (addr : address_t) : Int × State :=
  WEB3_PREAMBLE "eth_getBalance" st fun st =>
  orFail (__web3_printaddr st addr) fun st =>
  orFail (__web3_printbuf st ",\"latest\"".toList) fun st =>
  WEB3_TERMINATOR st

/-- The function `eth_call`. -/
def eth_call (F : tx_flag_bits) (st : State) (sender : address_t) (tx : transaction_t)
    (tx_flags : Nat) : Int × State :=
  WEB3_PREAMBLE "eth_call" st fun st =>
  orFail (__web3_printtxparam F st sender tx tx_flags) fun st =>
  WEB3_TERMINATOR st

/-- The function `eth_estimateGas`. -/
def eth_estimateGas (F : tx_flag_bits) (st : State) (sender : address_t)
    (tx : transaction_t) : Int × State :=
  WEB3_PREAMBLE "eth_estimateGas" st fun st =>
  orFail (__web3_printtxparam F st sender tx 0) fun st =>
  WEB3_TERMINATOR st

/-- The function `eth_getTransactionReceipt`. -/
def eth_getTransactionReceipt (st : State) (tx_hash : tx_hash_t) : Int × State :=
  WEB3_PREAMBLE "eth_getTransactionReceipt" st fun st =>
  orFail (__web3_printdata st tx_hash.h) fun st =>
  WEB3_TERMINATOR st

/-! ## The unit converter -/

/-- Number of values of `uint256_t`. -/
def U256_MOD : Nat := 2 ^ 256

/-- Modelled from the spec: the primitive `set256_uint64` of the 256-bit
integer library (`set256FromU64`), applied to the unsigned 64-bit value of the
argument. -/
def set256_uint64 (v : Nat) : Nat := v % 2 ^ 64

/-- Modelled from the spec: the primitive `mul256`, multiplication of 256-bit
unsigned integers. -/
def mul256 (a b : Nat) : Nat := (a * b) % U256_MOD

/-- Modelled from the spec: the primitive `divmod256`, quotient and remainder
of 256-bit unsigned integers. -/
def divmod256 (a b : Nat) : Nat × Nat := (a / b, a % b)

/-- Modelled from the spec: the primitive `gt256`, comparison of 256-bit
unsigned integers. -/
def gt256 (a b : Nat) : Bool := decide (a > b)

/-- The function `eth_convert`; `from_` and `to_` are the ordinals of the
units `from` and `to`, and `pow(10, e)` is the integer `10 ^ e`. -/
def eth_convert (m : Memory) (amount from_ to_ buf buf_size : Nat) : Int × Memory :=
  if from_ ≥ to_ then
    let power := set256_uint64 (10 ^ (from_ - to_))
    let conversion := mul256 amount power
    let t := tostring256 m conversion 10 buf buf_size
    if t.2 = false then (-1, t.1) else (0, t.1)
  else
    let power := set256_uint64 (10 ^ (to_ - from_))
    let d := divmod256 amount power
    let t := tostring256 m d.1 10 buf buf_size
    if t.2 = false then (-1, t.1)
    else if gt256 d.2 (set256_uint64 0) then
      let len := strlen t.1 buf SIZE_MOD
      if len = buf_size then (-1, t.1)
      else
        let m1 := write (write t.1 (buf + len) ['.']) (buf + (len + 1)) [NUL]
        let t2 := tostring256 m1 d.2 10 (buf + len + 1) (size_sub buf_size (len + 1))
        if t2.2 = false then (-1, t2.1)
        else
          let shift : Int :=
            (to_ : Int) - (from_ : Int) - (strlen t2.1 (buf + len + 1) SIZE_MOD : Int)
          if shift > 0 then
            if len + 1 + shift.toNat + 1 > buf_size then (-1, t2.1)
            else
              let m2 := write t2.1 (buf + len + 1) (List.replicate shift.toNat '0')
              let t3 := tostring256 m2 d.2 10 (buf + len + 1 + shift.toNat)
                (size_sub buf_size (len + 1 + shift.toNat))
              if t3.2 = false then (-1, t3.1) else (0, t3.1)
          else (0, t2.1)
    else (0, t.1)

/-! ## Texts of the specification and proof predicates -/

/-- The state `s` continues `st` with `text` appended at the cursor: same
buffer, capacity and request id, the cursor advanced by the length of the
text, the text stored at the old cursor, the bytes below it untouched. -/
def Post (st : State) (text : List Char) (s : State) : Prop :=
  s.web3.buf = st.web3.buf ∧ s.web3.buf_size = st.web3.buf_size ∧
  s.web3.req_id = st.web3.req_id ∧
  s.web3.buf_used = st.web3.buf_used + text.length ∧
  read s.mem (st.web3.buf + st.web3.buf_used) text.length = text ∧
  ∀ a, a < st.web3.buf + st.web3.buf_used → s.mem a = st.mem a

/-- The step `r` succeeds and appends `text`, provided the capacity is a
`size_t` and exceeds the cursor plus the length of the text. -/
def Ok (st : State) (text : List Char) (r : Int × State) : Prop :=
  st.web3.buf_size < SIZE_MOD → st.web3.buf_used + text.length < st.web3.buf_size →
    r.1 = 0 ∧ Post st text r.2

/-- The text of a quoted hexadecimal byte string: a quote, `0x`, two
hexadecimal characters per byte, a quote. -/
def quoted_hex (bytes : List Nat) : List Char :=
  "\"0x".toList ++ (hexstr bytes ++ "\"".toList)

/-- The text of a quoted 256-bit value: a quote, `0x`, the base-16 rendering,
a quote. -/
def quoted_uint256 (val : Nat) : List Char :=
  "\"0x".toList ++ (Nat.toDigits 16 val ++ "\"".toList)

/-- The bytes `buf[0..used]` after a call: the wire payload. -/
def output (r : Int × State) : List Char :=
  read r.2.mem r.2.web3.buf r.2.web3.buf_used

/-- The request text of the specification: the envelope with the id in
decimal, the method name and the parameter list. -/
def request_text (id : Int) (method : String) (params : List Char) : List Char :=
  "\x7b\"jsonrpc\":\"2.0\",\"id\":".toList ++ (toString id).toList ++
    ",\"method\":\"".toList ++ method.toList ++ "\",\"params\":[".toList ++ params ++
    "]\x7d".toList

/-- What `encodeAddress` appends: a quote, `0x`, the hexadecimal characters of
the address bytes, a quote. -/
def encodeAddress (addr : address_t) : List Char := quoted_hex addr.a

/-- What `encodeDataBlob` appends: a quote, `0x`, the hexadecimal characters of
the bytes, a quote. -/
def encodeDataBlob (bytes : List Nat) : List Char := quoted_hex bytes

/-- What `encodeHexUint` appends according to the specification: a quote,
`0x`, the lowercase hexadecimal digits of the value without leading zeros, a
quote. -/
def encodeHexUint (val : Nat) : List Char :=
  "\"0x".toList ++ Nat.toDigits 16 val ++ "\"".toList

/-- What `__web3_printhex` appends: a quote, `0x`, the digits the conversion
`%x` produces for the argument, a quote. -/
def printhex_text (val : Nat) : List Char := "\"0x".toList ++ fmt_x val ++ "\"".toList

/-- What `encodeUint256` appends: a quote, `0x`, the base-16 rendering, a
quote. -/
def encodeUint256 (val : Nat) : List Char := quoted_uint256 val

/-- The text of the transaction parameter as the specification lists it: the
object with `to`, then each field whose flag bit is clear, in the order from,
gas, gasPrice, value, data (data only for a non-null, non-empty payload), the
closing brace and the block tag; gas and gasPrice are rendered by
`encodeHexUint`. -/
def txparam_text (F : tx_flag_bits) (sender : address_t) (tx : transaction_t)
    (tx_flags : Nat) : List Char :=
  "\x7b\"to\":".toList ++ encodeAddress tx.to_ ++
  (if tx_flags &&& F.TX_NO_FROM = 0 then ",\"from\":".toList ++ encodeAddress sender else []) ++
  (if tx_flags &&& F.TX_NO_GAS = 0 then ",\"gas\":".toList ++ encodeHexUint tx.gas_limit
    else []) ++
  (if tx_flags &&& F.TX_NO_GASPRICE = 0 then
    ",\"gasPrice\":".toList ++ encodeHexUint tx.gas_price else []) ++
  (if tx_flags &&& F.TX_NO_VALUE = 0 then ",\"value\":".toList ++ encodeUint256 tx.value
    else []) ++
  (match tx.data with
    | some d =>
      if tx_flags &&& F.TX_NO_DATA = 0 ∧ tx.data_len ≠ 0 then
        ",\"data\":".toList ++ encodeDataBlob (d.take tx.data_len)
      else []
    | none => []) ++
  "\x7d".toList ++ ",\"latest\"".toList

/-- The text `__web3_printtxparam` appends when the capacity suffices: the
text of the specification with gas and gasPrice as `__web3_printhex` renders
them. -/
def txparam_emitted (F : tx_flag_bits) (sender : address_t) (tx : transaction_t)
    (tx_flags : Nat) : List Char :=
  "\x7b\"to\":".toList ++ encodeAddress tx.to_ ++
  (if tx_flags &&& F.TX_NO_FROM = 0 then ",\"from\":".toList ++ encodeAddress sender else []) ++
  (if tx_flags &&& F.TX_NO_GAS = 0 then ",\"gas\":".toList ++ printhex_text tx.gas_limit
    else []) ++
  (if tx_flags &&& F.TX_NO_GASPRICE = 0 then
    ",\"gasPrice\":".toList ++ printhex_text tx.gas_price else []) ++
  (if tx_flags &&& F.TX_NO_VALUE = 0 then ",\"value\":".toList ++ encodeUint256 tx.value
    else []) ++
  (match tx.data with
    | some d =>
      if tx_flags &&& F.TX_NO_DATA = 0 ∧ tx.data_len ≠ 0 then
        ",\"data\":".toList ++ encodeDataBlob (d.take tx.data_len)
      else []
    | none => []) ++
  "\x7d".toList ++ ",\"latest\"".toList

/-- A call succeeds and leaves exactly `T` in `buf[0..used]`. -/
def Emits (r : Int × State) (T : List Char) : Prop := r.1 = 0 ∧ output r = T

/-- A memory holding zero bytes only. -/
def zero_mem : Memory := fun _ => NUL

/-- A context with capacity 10 and cursor 8 over a zeroed memory. -/
def tight_state : State :=
  { mem := zero_mem, web3 := { buf := 0, buf_size := 10, buf_used := 8, req_id := 0 } }

/-- The flag constants as distinct single bits. -/
def sample_bits : tx_flag_bits :=
  { TX_NO_FROM := 1, TX_NO_GAS := 2, TX_NO_GASPRICE := 4, TX_NO_VALUE := 8, TX_NO_DATA := 16 }

/-- An address with the bytes 0, 1, ..., 19. -/
def sample_addr : address_t := { a := List.range 20, size := rfl }

/-- A hash with the bytes 0, 1, ..., 31. -/
def sample_hash : tx_hash_t := { h := List.range 32, size := rfl }

/-- A transaction with a three-byte payload. -/
def sample_tx : transaction_t :=
  { to_ := sample_addr, gas_limit := 21000, gas_price := 5, value := 1000,
    data := some [1, 2, 3], data_len := 3 }

/-- The sample transaction with the gas limit 2^32. -/
def big_gas_tx : transaction_t :=
  { to_ := sample_addr, gas_limit := 4294967296, gas_price := 5, value := 1000,
    data := some [1, 2, 3], data_len := 3 }

/-! ## Texts of the unit converter -/

/-- The decimal rendering of a natural number. -/
def decimal (n : Nat) : List Char := (toString n).toList

/-- The text of a conversion to a larger unit as the specification describes
it: the quotient in decimal, followed, when the remainder is not zero, by a dot
and the remainder in decimal left-padded with zeros to `shift` digits. -/
def fixed_point_text (amount shift : Nat) : List Char :=
  decimal (amount / 10 ^ shift) ++
    (if amount % 10 ^ shift ≠ 0 then
      '.' :: (List.replicate (shift - (decimal (amount % 10 ^ shift)).length) '0' ++
        decimal (amount % 10 ^ shift))
    else [])

/-- A memory holding the letter `Z` everywhere. -/
def z_mem : Memory := fun _ => 'Z'

/-! ## Frame and tail predicates -/

/-- The state `s` has the buffer address, the capacity and the request id of
`st`. -/
def Frame (st s : State) : Prop :=
  s.web3.buf = st.web3.buf ∧ s.web3.buf_size = st.web3.buf_size ∧
  s.web3.req_id = st.web3.req_id

/-- Every byte of the buffer at an index from the cursor up to the capacity is
zero. -/
def TailZero (st : State) : Prop :=
  ∀ i, st.web3.buf_used ≤ i → i < st.web3.buf_size → st.mem (st.web3.buf + i) = NUL

/-- What every step guarantees, whatever the capacity: the frame is kept, the
result is 0 or -1, and on success (lengths being `size_t` values) the cursor
has advanced by the length of `text` and a zero tail stays a zero tail. -/
def Step (st : State) (text : List Char) (r : Int × State) : Prop :=
  Frame st r.2 ∧ (r.1 = 0 ∨ r.1 = -1) ∧
  (st.web3.buf_size < SIZE_MOD → st.web3.buf_used + text.length < SIZE_MOD → r.1 = 0 →
    r.2.web3.buf_used = st.web3.buf_used + text.length ∧ (TailZero st → TailZero r.2))

/-- The middle of `__web3_printaddr` and `__web3_printdata`: the call of
`bintohex_nonull` at the cursor, the tests of its result (`least` is the
least accepted length) and the update of the cursor. -/
def hexcopy (st : State) (inp : List Nat) (least : Int) : Int × State :=
  let h := bintohex_nonull st.mem inp (st.web3.buf + st.web3.buf_used)
    (size_sub st.web3.buf_size st.web3.buf_used)
  if h.2 < 0 then (-1, { st with mem := h.1 })
  else if h.2 < least then (-1, { st with mem := h.1 })
  else (0, { mem := h.1,
             web3 := { st.web3 with buf_used := size_add st.web3.buf_used h.2.toNat } })

/-- The middle of `__web3_printuint256`: the call of `tostring256` at the
cursor, the test of its result and the update of the cursor by `strlen`. -/
def digitscopy (st : State) (val : Nat) : Int × State :=
  let t := tostring256 st.mem val 16 (st.web3.buf + st.web3.buf_used)
    (size_sub st.web3.buf_size st.web3.buf_used)
  if t.2 = false then (-1, { st with mem := t.1 })
  else (0, { mem := t.1,
             web3 := { st.web3 with
               buf_used := size_add st.web3.buf_used
                 (strlen t.1 (st.web3.buf + st.web3.buf_used) SIZE_MOD) } })

/-- Two states agree on capacity, cursor, request id and on every byte of
their buffers, compared at equal indices. -/
def SameView (s1 s2 : State) : Prop :=
  s1.web3.buf_size = s2.web3.buf_size ∧ s1.web3.buf_used = s2.web3.buf_used ∧
  s1.web3.req_id = s2.web3.req_id ∧
  ∀ i, i < s1.web3.buf_size → s1.mem (s1.web3.buf + i) = s2.mem (s2.web3.buf + i)

/-- Two results agree: same return value and states with the same view. -/
def SameResult (r1 r2 : Int × State) : Prop := r1.1 = r2.1 ∧ SameView r1.2 r2.2

/-- The transaction object alone, with every field: to, from, gas, gasPrice
(both as `__web3_printhex` renders them), value, and data when the payload is
present and not empty. -/
def txobject_text (sender : address_t) (tx : transaction_t) : List Char :=
  "\x7b\"to\":".toList ++ encodeAddress tx.to_ ++
  ",\"from\":".toList ++ encodeAddress sender ++
  ",\"gas\":".toList ++ printhex_text tx.gas_limit ++
  ",\"gasPrice\":".toList ++ printhex_text tx.gas_price ++
  ",\"value\":".toList ++ encodeUint256 tx.value ++
  (match tx.data with
    | some d =>
      if tx.data_len ≠ 0 then ",\"data\":".toList ++ encodeDataBlob (d.take tx.data_len)
      else []
    | none => []) ++
  "\x7d".toList

/-- A context with capacity 200, cursor 17 and request id 0 whose buffer, at
address 300, is filled with the letter `Z`. -/
def dirty_state : State :=
  { mem := z_mem, web3 := { buf := 300, buf_size := 200, buf_used := 17, req_id := 0 } }

/-! ## Memory lemmas -/

theorem read_length (m : Memory) (a n : Nat) : (read m a n).length = n := by
  simp [read]

theorem read_write_same (m : Memory) (a : Nat) (l r : List Char) :
    read (write m a (l ++ r)) a l.length = l := by
  apply List.ext_getElem
  · simp [read]
  · intro i h1 h2
    simp [read, write]
    have : i < l.length + r.length := by omega
    simp [this, List.getElem?_append_left h2, List.getElem?_eq_getElem h2]

theorem read_congr (m1 m2 : Memory) (a n : Nat) (h : ∀ i, i < n → m1 (a + i) = m2 (a + i)) :
    read m1 a n = read m2 a n := by
  apply List.ext_getElem
  · simp [read]
  · intro i h1 h2
    simp [read] at h1 ⊢
    exact h i h1

theorem read_add (m : Memory) (a j k : Nat) :
    read m a (j + k) = read m a j ++ read m (a + j) k := by
  simp [read, List.range_add, Nat.add_assoc]

theorem write_below (m : Memory) (dst : Nat) (l : List Char) (a : Nat) (h : a < dst) :
    write m dst l a = m a := by
  simp [write]; intro h1; omega

theorem size_sub_eq (a b : Nat) (ha : a < SIZE_MOD) (hb : b ≤ a) : size_sub a b = a - b := by
  unfold size_sub
  have hb2 : b % SIZE_MOD = b := Nat.mod_eq_of_lt (by omega)
  rw [hb2]
  have : a + (SIZE_MOD - b) = (a - b) + SIZE_MOD := by omega
  rw [this, Nat.add_mod_right]
  exact Nat.mod_eq_of_lt (by omega)

theorem size_add_eq (a b : Nat) (h : a + b < SIZE_MOD) : size_add a b = a + b := by
  unfold size_add; exact Nat.mod_eq_of_lt h

/-! ## Appending under sufficient capacity -/

theorem Post.refl (st : State) : Post st [] st := by
  simp [Post, read]

theorem Post.trans {st s1 s2 : State} {t1 t2 : List Char}
    (h1 : Post st t1 s1) (h2 : Post s1 t2 s2) : Post st (t1 ++ t2) s2 := by
  obtain ⟨a1, b1, c1, d1, e1, f1⟩ := h1
  obtain ⟨a2, b2, c2, d2, e2, f2⟩ := h2
  refine ⟨by omega, by omega, by omega, by simp; omega, ?_, ?_⟩
  · rw [List.length_append, read_add]
    rw [a1, d1] at e2
    rw [Nat.add_assoc, e2]
    congr 1
    have hc : read s2.mem (st.web3.buf + st.web3.buf_used) t1.length =
        read s1.mem (st.web3.buf + st.web3.buf_used) t1.length := by
      apply read_congr
      intro i hi
      apply f2
      rw [a1, d1]; omega
    rw [hc, e1]
  · intro a ha
    rw [f2 a (by rw [a1, d1]; omega), f1 a ha]

theorem Ok.nil (st : State) : Ok st [] (0, st) := by
  intro _ _; exact ⟨rfl, Post.refl st⟩

theorem Ok.seq {st : State} {t1 t2 : List Char} {p : Int × State}
    {k : State → Int × State} (h1 : Ok st t1 p)
    (h2 : ∀ s1, Post st t1 s1 → Ok s1 t2 (k s1)) : Ok st (t1 ++ t2) (orFail p k) := by
  intro hsz hfit
  rw [List.length_append] at hfit
  obtain ⟨r1, P1⟩ := h1 hsz (by omega)
  have hk := h2 p.2 P1 (by rw [P1.2.1]; exact hsz) (by rw [P1.2.1, P1.2.2.2.1]; omega)
  unfold orFail
  rw [r1]
  simp only [lt_self_iff_false, if_false]
  exact ⟨hk.1, Post.trans P1 hk.2⟩

theorem Ok.ite {st : State} {t : List Char} {r : Int × State} (c : Prop) [Decidable c]
    (h : Ok st t r) : Ok st (if c then t else []) (if c then r else (0, st)) := by
  split
  · exact h
  · exact Ok.nil st

theorem printbuf_ok (st : State) (text : List Char) : Ok st text (__web3_printbuf st text) := by
  intro hsz hfit
  have hn : size_sub st.web3.buf_size st.web3.buf_used = st.web3.buf_size - st.web3.buf_used :=
    size_sub_eq _ _ hsz (by omega)
  have hlt : ¬ text.length ≥ st.web3.buf_size := by omega
  have hn0 : ¬ st.web3.buf_size - st.web3.buf_used = 0 := by omega
  have htake : List.take (st.web3.buf_size - st.web3.buf_used - 1) text = text :=
    List.take_of_length_le (by omega)
  simp only [__web3_printbuf, vsnprintf, hn, hn0, if_false, hlt, htake]
  refine ⟨trivial, rfl, rfl, rfl, ?_, ?_, ?_⟩
  · exact size_add_eq _ _ (by omega)
  · exact read_write_same _ _ _ _
  · intro a ha
    exact write_below _ _ _ _ ha

/-! ## Digits -/

theorem digitChar_ne_nul : ∀ k, k < 16 → Nat.digitChar k ≠ NUL := by
  decide

theorem toDigitsCore_forall (P : Char → Prop) (b : Nat) (hb : 0 < b)
    (hP : ∀ k, k < b → P (Nat.digitChar k)) :
    ∀ (fuel n : Nat) (ds : List Char), (∀ c ∈ ds, P c) →
      ∀ c ∈ Nat.toDigitsCore b fuel n ds, P c := by
  intro fuel
  induction fuel with
  | zero => intro n ds h; simpa [Nat.toDigitsCore] using h
  | succ f ih =>
    intro n ds h
    have hcons : ∀ c ∈ Nat.digitChar (n % b) :: ds, P c := by
      intro c hc
      rcases List.mem_cons.mp hc with rfl | hc
      · exact hP _ (Nat.mod_lt _ hb)
      · exact h c hc
    simp only [Nat.toDigitsCore]
    split
    · exact hcons
    · exact ih _ _ hcons

theorem toDigits_forall (P : Char → Prop) (b : Nat) (hb : 0 < b)
    (hP : ∀ k, k < b → P (Nat.digitChar k)) (n : Nat) :
    ∀ c ∈ Nat.toDigits b n, P c :=
  toDigitsCore_forall P b hb hP _ _ [] (by simp)

theorem hexstr_length (l : List Nat) : (hexstr l).length = l.length * 2 := by
  induction l with
  | nil => rfl
  | cons b bs ih =>
    have : hexstr (b :: bs) = hexbyte b ++ hexstr bs := by simp [hexstr]
    rw [this, List.length_append, ih]
    simp [hexbyte]; omega

theorem strlen_eq (m : Memory) (l : List Char) :
    ∀ (s fuel : Nat), (∀ i (h : i < l.length), m (s + i) = l[i]) → m (s + l.length) = NUL →
      (∀ c ∈ l, c ≠ NUL) → l.length < fuel → strlen m s fuel = l.length := by
  induction l with
  | nil =>
    intro s fuel _ hn _ hf
    cases fuel with
    | zero => simp at hf
    | succ f => simpa [strlen] using hn
  | cons c cs ih =>
    intro s fuel hm hn hc hf
    cases fuel with
    | zero => simp at hf
    | succ f =>
      have h0 : m s = c := by simpa using hm 0 (by simp)
      have hcn : ¬ m s = NUL := by rw [h0]; exact hc c (by simp)
      simp only [strlen, hcn, if_false, List.length_cons]
      rw [ih (s + 1) f ?_ ?_ (fun c hcm => hc c (by simp [hcm])) (by simpa using hf)]
      · omega
      · intro i hi
        have := hm (i + 1) (by simpa using hi)
        simpa [Nat.add_assoc, Nat.add_comm 1 i] using this
      · simpa [Nat.add_assoc, Nat.add_comm 1] using hn

/-! ## The typed encoders under sufficient capacity -/

theorem hex_step (st1 : State) (inp : List Nat) (hsz : st1.web3.buf_size < SIZE_MOD)
    (hfit : st1.web3.buf_used + inp.length * 2 < st1.web3.buf_size) :
    (bintohex_nonull st1.mem inp (st1.web3.buf + st1.web3.buf_used)
        (size_sub st1.web3.buf_size st1.web3.buf_used)).2 = ((inp.length * 2 : Nat) : Int) ∧
    Post st1 (hexstr inp)
      { mem := (bintohex_nonull st1.mem inp (st1.web3.buf + st1.web3.buf_used)
          (size_sub st1.web3.buf_size st1.web3.buf_used)).1,
        web3 := { st1.web3 with buf_used := size_add st1.web3.buf_used (inp.length * 2) } } := by
  have hn : size_sub st1.web3.buf_size st1.web3.buf_used
      = st1.web3.buf_size - st1.web3.buf_used := size_sub_eq _ _ hsz (by omega)
  have hlt : ¬ st1.web3.buf_size - st1.web3.buf_used < inp.length * 2 := by omega
  simp only [bintohex_nonull, hn, hlt, if_false]
  refine ⟨trivial, rfl, rfl, rfl, ?_, ?_, ?_⟩
  · rw [hexstr_length]; exact size_add_eq _ _ (by omega)
  · simpa using read_write_same st1.mem (st1.web3.buf + st1.web3.buf_used) (hexstr inp) []
  · intro a ha
    exact write_below _ _ _ _ ha

theorem quoted_hex_length (l : List Nat) : (quoted_hex l).length = l.length * 2 + 4 := by
  simp [quoted_hex, hexstr_length]

theorem hex_quote_ok (st : State) (inp : List Nat)
    (r : Int × State)
    (hr : r =
      (let p := __web3_printbuf st "\"0x".toList
       if p.1 < 0 then (p.1, p.2)
       else
        let st1 := p.2
        let h := bintohex_nonull st1.mem inp (st1.web3.buf + st1.web3.buf_used)
          (size_sub st1.web3.buf_size st1.web3.buf_used)
        if h.2 < 0 then (-1, { st1 with mem := h.1 })
        else
          let st2 : State :=
            { mem := h.1,
              web3 := { st1.web3 with buf_used := size_add st1.web3.buf_used h.2.toNat } }
          let q := __web3_printbuf st2 "\"".toList
          if q.1 < 0 then (q.1, q.2) else (0, q.2))) :
    Ok st (quoted_hex inp) r := by
  intro hsz hfit
  rw [quoted_hex_length] at hfit
  obtain ⟨r1, P1⟩ := printbuf_ok st "\"0x".toList hsz (by simp; omega)
  have hu1 : (__web3_printbuf st "\"0x".toList).2.web3.buf_used = st.web3.buf_used + 3 :=
    P1.2.2.2.1
  have hc1 := P1.2.1
  obtain ⟨hh, PH⟩ := hex_step (__web3_printbuf st "\"0x".toList).2 inp (by omega) (by omega)
  obtain ⟨r3, P3⟩ := printbuf_ok _ "\"".toList
    (by rw [PH.2.1, hc1]; exact hsz)
    (by
      have hq : "\"".toList.length = 1 := rfl
      rw [PH.2.1, PH.2.2.2.1, hexstr_length, hc1, hu1, hq]; omega)
  subst hr
  simp only [r1, hh, Int.toNat_ofNat, lt_self_iff_false, if_false]
  have hneg : ¬ ((inp.length * 2 : Nat) : Int) < 0 := by omega
  simp only [hneg, if_false]
  simp only [r3, lt_self_iff_false, if_false, true_and]
  exact Post.trans P1 (Post.trans PH P3)

theorem printdata_ok (st : State) (buf : List Nat) :
    Ok st (quoted_hex buf) (__web3_printdata st buf) := by
  intro hsz hfit
  have hfit2 := hfit
  rw [quoted_hex_length] at hfit2
  have hn : size_sub st.web3.buf_size st.web3.buf_used = st.web3.buf_size - st.web3.buf_used :=
    size_sub_eq _ _ hsz (by omega)
  have hpre : ¬ buf.length ≥ st.web3.buf_size - st.web3.buf_used := by omega
  refine hex_quote_ok st buf _ ?_ hsz hfit
  simp only [__web3_printdata, hn, hpre, if_false]

theorem printaddr_ok (st : State) (addr : address_t) :
    Ok st (quoted_hex addr.a) (__web3_printaddr st addr) := by
  intro hsz hfit
  have hfit2 := hfit
  rw [quoted_hex_length, addr.size] at hfit2
  obtain ⟨r1, P1⟩ := printbuf_ok st "\"0x".toList hsz (by simp; omega)
  have hu1 : (__web3_printbuf st "\"0x".toList).2.web3.buf_used = st.web3.buf_used + 3 :=
    P1.2.2.2.1
  have hc1 := P1.2.1
  obtain ⟨hh, _⟩ := hex_step (__web3_printbuf st "\"0x".toList).2 addr.a (by omega)
    (by rw [addr.size]; omega)
  refine hex_quote_ok st addr.a _ ?_ hsz hfit
  have h40 : ¬ ((addr.a.length * 2 : Nat) : Int) < 40 := by rw [addr.size]; decide
  simp only [__web3_printaddr, r1, hh, h40, if_false]

theorem printhex_ok (st : State) (val : Nat) :
    Ok st ("\"0x".toList ++ fmt_x val ++ "\"".toList) (__web3_printhex st val) :=
  printbuf_ok st _

theorem write_at (m : Memory) (a : Nat) (l : List Char) (i : Nat) (h : i < l.length) :
    write m a l (a + i) = l[i] := by
  simp [write, h, List.getElem?_eq_getElem h]

theorem tostring_step (st1 : State) (val : Nat) (hsz : st1.web3.buf_size < SIZE_MOD)
    (hfit : st1.web3.buf_used + (Nat.toDigits 16 val).length + 1 < st1.web3.buf_size) :
    (tostring256 st1.mem val 16 (st1.web3.buf + st1.web3.buf_used)
        (size_sub st1.web3.buf_size st1.web3.buf_used)).2 = true ∧
    Post st1 (Nat.toDigits 16 val)
      { mem := (tostring256 st1.mem val 16 (st1.web3.buf + st1.web3.buf_used)
          (size_sub st1.web3.buf_size st1.web3.buf_used)).1,
        web3 := { st1.web3 with
          buf_used := size_add st1.web3.buf_used
            (strlen (tostring256 st1.mem val 16 (st1.web3.buf + st1.web3.buf_used)
              (size_sub st1.web3.buf_size st1.web3.buf_used)).1
              (st1.web3.buf + st1.web3.buf_used) SIZE_MOD) } } := by
  have hn : size_sub st1.web3.buf_size st1.web3.buf_used
      = st1.web3.buf_size - st1.web3.buf_used := size_sub_eq _ _ hsz (by omega)
  have hlt : ¬ st1.web3.buf_size - st1.web3.buf_used < (Nat.toDigits 16 val).length + 1 := by
    omega
  have hlen : strlen (write st1.mem (st1.web3.buf + st1.web3.buf_used)
      (Nat.toDigits 16 val ++ [NUL])) (st1.web3.buf + st1.web3.buf_used) SIZE_MOD
      = (Nat.toDigits 16 val).length := by
    apply strlen_eq
    · intro i hi
      rw [write_at _ _ _ _ (by simp; omega), List.getElem_append_left hi]
    · rw [write_at _ _ _ _ (by simp)]
      simp
    · exact toDigits_forall (fun c => c ≠ NUL) 16 (by decide) digitChar_ne_nul val
    · omega
  simp only [tostring256, hn, hlt, if_false, hlen]
  refine ⟨trivial, rfl, rfl, rfl, ?_, ?_, ?_⟩
  · exact size_add_eq _ _ (by omega)
  · exact read_write_same _ _ _ _
  · intro a ha
    exact write_below _ _ _ _ ha

theorem printuint256_ok (st : State) (val : Nat) :
    Ok st (quoted_uint256 val) (__web3_printuint256 st val) := by
  intro hsz hfit
  have hq : "\"".toList.length = 1 := rfl
  have h3 : "\"0x".toList.length = 3 := rfl
  simp only [quoted_uint256, List.length_append, hq, h3] at hfit
  obtain ⟨r1, P1⟩ := printbuf_ok st "\"0x".toList hsz (by rw [h3]; omega)
  have hu1 : (__web3_printbuf st "\"0x".toList).2.web3.buf_used = st.web3.buf_used + 3 :=
    P1.2.2.2.1
  have hc1 := P1.2.1
  obtain ⟨ht, PT⟩ := tostring_step (__web3_printbuf st "\"0x".toList).2 val (by omega) (by omega)
  obtain ⟨r3, P3⟩ := printbuf_ok _ "\"".toList
    (by rw [PT.2.1, hc1]; exact hsz)
    (by rw [PT.2.1, PT.2.2.2.1, hc1, hu1, hq]; omega)
  simp only [__web3_printuint256, r1, ht, lt_self_iff_false, if_false, Bool.true_eq_false]
  simp only [r3, lt_self_iff_false, if_false, true_and]
  exact Post.trans P1 (Post.trans PT P3)

/-! ## The request texts -/

theorem txparam_ok (F : tx_flag_bits) (st : State) (sender : address_t) (tx : transaction_t)
    (tx_flags : Nat) :
    Ok st (txparam_emitted F sender tx tx_flags) (__web3_printtxparam F st sender tx tx_flags) := by
  have key : Ok st
      ("\x7b".toList ++ ("\"to\":".toList ++ (quoted_hex tx.to_.a ++
        ((if tx_flags &&& F.TX_NO_FROM = 0 then
            ",\"from\":".toList ++ (quoted_hex sender.a ++ []) else []) ++
        ((if tx_flags &&& F.TX_NO_GAS = 0 then
            ",\"gas\":".toList ++ (printhex_text tx.gas_limit ++ []) else []) ++
        ((if tx_flags &&& F.TX_NO_GASPRICE = 0 then
            ",\"gasPrice\":".toList ++ (printhex_text tx.gas_price ++ []) else []) ++
        ((if tx_flags &&& F.TX_NO_VALUE = 0 then
            ",\"value\":".toList ++ (quoted_uint256 tx.value ++ []) else []) ++
        ((match tx.data with
          | some d =>
            if tx.data_len ≠ 0 ∧ tx_flags &&& F.TX_NO_DATA = 0 then
              ",\"data\":".toList ++ (quoted_hex (d.take tx.data_len) ++ []) else []
          | none => []) ++
        ("\x7d".toList ++ (",\"latest\"".toList ++ []))))))))))
      (__web3_printtxparam F st sender tx tx_flags) := by
    unfold __web3_printtxparam
    refine Ok.seq (printbuf_ok _ _) fun s _ => ?_
    refine Ok.seq (printbuf_ok _ _) fun s _ => ?_
    refine Ok.seq (printaddr_ok _ _) fun s _ => ?_
    refine Ok.seq (Ok.ite _ (Ok.seq (printbuf_ok _ _) fun s _ =>
      Ok.seq (printaddr_ok _ _) fun s _ => Ok.nil s)) fun s _ => ?_
    refine Ok.seq (Ok.ite _ (Ok.seq (printbuf_ok _ _) fun s _ =>
      Ok.seq (printhex_ok _ _) fun s _ => Ok.nil s)) fun s _ => ?_
    refine Ok.seq (Ok.ite _ (Ok.seq (printbuf_ok _ _) fun s _ =>
      Ok.seq (printhex_ok _ _) fun s _ => Ok.nil s)) fun s _ => ?_
    refine Ok.seq (Ok.ite _ (Ok.seq (printbuf_ok _ _) fun s _ =>
      Ok.seq (printuint256_ok _ _) fun s _ => Ok.nil s)) fun s _ => ?_
    refine Ok.seq ?_ fun s _ => ?_
    · cases tx.data with
      | none => exact Ok.nil s
      | some d =>
        exact Ok.ite _ (Ok.seq (printbuf_ok _ _) fun s _ =>
          Ok.seq (printdata_ok _ _) fun s _ => Ok.nil s)
    · refine Ok.seq (printbuf_ok _ _) fun s _ => ?_
      exact Ok.seq (printbuf_ok _ _) fun s _ => Ok.nil s
  convert key using 1
  unfold txparam_emitted encodeAddress encodeUint256 encodeDataBlob
  cases tx.data with
  | none => simp
  | some d => simp [and_comm]

theorem preamble_ok (func : String) (st : State) (k : State → Int × State) (T : List Char)
    (h : ∀ s1, Post (__web3_resetbuf st) (JSONRPC_HEADER st.web3.req_id func) s1 →
      Ok s1 T (k s1)) :
    Ok (__web3_resetbuf st) (JSONRPC_HEADER st.web3.req_id func ++ T)
      (WEB3_PREAMBLE func st k) :=
  Ok.seq (printbuf_ok _ _) h

theorem terminator_ok (st : State) :
    Ok st (JSONRPC_TERMINATOR ++ []) (WEB3_TERMINATOR st) :=
  Ok.seq (printbuf_ok _ _) fun s _ => Ok.nil s

theorem built_output (st : State) (T : List Char) (r : Int × State)
    (h : Ok (__web3_resetbuf st) T r) (hsz : st.web3.buf_size < SIZE_MOD)
    (hfit : T.length < st.web3.buf_size) : r.1 = 0 ∧ output r = T := by
  obtain ⟨hr, hb, _, _, hu, hm, _⟩ := h hsz (by simpa [__web3_resetbuf] using hfit)
  refine ⟨hr, ?_⟩
  unfold output
  rw [hb, hu]
  simpa [__web3_resetbuf] using hm

theorem fmt_d_eq_toString (i : Int) : fmt_d i = (toString i).toList := by
  cases i with
  | ofNat m =>
    have : ¬ (Int.ofNat m < 0) := by simp
    simp [fmt_d, this, toString, Nat.repr, String.toList, List.asString]
  | negSucc m =>
    have : (Int.negSucc m < 0) := Int.negSucc_lt_zero m
    simp [fmt_d, this, toString, Nat.repr, String.toList, List.asString]

theorem request_text_eq (id : Int) (method : String) (params : List Char) :
    request_text id method params =
      JSONRPC_HEADER id method ++ (params ++ (JSONRPC_TERMINATOR ++ [])) := by
  simp [request_text, JSONRPC_HEADER, JSONRPC_TERMINATOR, fmt_d_eq_toString]

/-! ## Scanning for a quote followed by `d` -/

theorem call_emits (F : tx_flag_bits) (st : State) (sender : address_t) (tx : transaction_t)
    (tx_flags : Nat) (hsz : st.web3.buf_size < SIZE_MOD)
    (hfit : (request_text st.web3.req_id "eth_call"
      (txparam_emitted F sender tx tx_flags)).length < st.web3.buf_size) :
    Emits (eth_call F st sender tx tx_flags)
      (request_text st.web3.req_id "eth_call" (txparam_emitted F sender tx tx_flags)) := by
  refine built_output st _ _ ?_ hsz hfit
  rw [request_text_eq]
  refine preamble_ok _ _ _ _ fun s _ => ?_
  exact Ok.seq (txparam_ok _ _ _ _ _) fun s _ => terminator_ok s

theorem vsnprintf_snd (m : Memory) (dst n : Nat) (text : List Char) :
    (vsnprintf m dst n text).2 = text.length := by
  unfold vsnprintf
  split <;> rfl

theorem printbuf_fails_iff (st : State) (text : List Char) :
    (__web3_printbuf st text).1 = -1 ↔ text.length ≥ st.web3.buf_size := by
  simp only [__web3_printbuf, vsnprintf_snd]
  by_cases h : text.length ≥ st.web3.buf_size
  · simp [h]
  · simp [h]

/-- C1 (the code departs from the claim): with capacity 10 and cursor 8 the
remaining capacity is 2, a text of length 5 reaches it, and yet
`__web3_printbuf` returns 0 and moves the cursor to 13: the length is compared
with the whole capacity, not with the remaining capacity. -/
theorem printbuf_accepts_text_beyond_remaining :
    "abcde".toList.length ≥ tight_state.web3.buf_size - tight_state.web3.buf_used ∧
    (__web3_printbuf tight_state "abcde".toList).1 = 0 ∧
    (__web3_printbuf tight_state "abcde".toList).2.web3.buf_used = 13 := by
  decide

/-! ## The request builders on short buffers -/

/-- C2 (the code departs from the claim): the request text of
`eth_blockNumber` with id 0 has 63 characters; with capacity 62 (one byte short
of the text) and with capacity 63 the call returns 0, not -1. -/
theorem blockNumber_short_capacity_returns_zero :
    (request_text 0 "eth_blockNumber" []).length = 63 ∧
    (eth_blockNumber (web3_init zero_mem 0 62)).1 = 0 ∧
    (eth_blockNumber (web3_init zero_mem 0 63)).1 = 0 := by
  decide

/-- C3 (the code departs from the claim): after `web3_init` with capacity 62
and one call of `eth_blockNumber` the cursor is 63, above the capacity. -/
theorem blockNumber_cursor_exceeds_capacity :
    (eth_blockNumber (web3_init zero_mem 0 62)).2.web3.buf_size = 62 ∧
    (eth_blockNumber (web3_init zero_mem 0 62)).2.web3.buf_used = 63 := by
  decide

/-- C4 (the code departs from the claim): with capacity 63 `eth_blockNumber`
returns 0, yet `buf[0..used]` is the header, the bracket and a zero byte: the
closing brace of the terminator is missing. -/
theorem blockNumber_accepts_truncated_text :
    (eth_blockNumber (web3_init zero_mem 0 63)).1 = 0 ∧
    output (eth_blockNumber (web3_init zero_mem 0 63)) =
      JSONRPC_HEADER 0 "eth_blockNumber" ++ [']', NUL] ∧
    output (eth_blockNumber (web3_init zero_mem 0 63)) ≠
      request_text 0 "eth_blockNumber" [] := by
  decide

/-! ## The request builders under sufficient capacity -/

theorem getBalance_sample_text :
    request_text 7 "eth_getBalance" (encodeAddress sample_addr ++ ",\"latest\"".toList) =
      ("\x7b\"jsonrpc\":\"2.0\",\"id\":7,\"method\":\"eth_getBalance\",\"params\":[" ++
        "\"0x000102030405060708090a0b0c0d0e0f10111213\",\"latest\"]\x7d").toList := by
  decide

/-- C5: on a context whose capacity is a `size_t` and strictly greater than
the length of the expected text, each of `eth_getTransactionCount`,
`eth_getBalance`, `eth_blockNumber`, `eth_sendRawTransaction` and
`eth_getTransactionReceipt` returns 0 and leaves in `buf[0..used]` exactly the
JSON-RPC envelope with the id in decimal, its own name as method and the
parameters: the quoted address (40 hexadecimal characters) and the block tag,
nothing, the quoted hexadecimal text of the bytes, the quoted hexadecimal text
of the hash (64 characters). -/
theorem builders_emit_request_text (st : State) (addr : address_t) (data : List Nat)
    (tx_hash : tx_hash_t) (hsz : st.web3.buf_size < SIZE_MOD) :
    ((request_text st.web3.req_id "eth_getTransactionCount"
        (encodeAddress addr ++ ",\"latest\"".toList)).length < st.web3.buf_size →
      Emits (eth_getTransactionCount st addr)
        (request_text st.web3.req_id "eth_getTransactionCount"
          (encodeAddress addr ++ ",\"latest\"".toList))) ∧
    ((request_text st.web3.req_id "eth_getBalance"
        (encodeAddress addr ++ ",\"latest\"".toList)).length < st.web3.buf_size →
      Emits (eth_getBalance st addr)
        (request_text st.web3.req_id "eth_getBalance"
          (encodeAddress addr ++ ",\"latest\"".toList))) ∧
    ((request_text st.web3.req_id "eth_blockNumber" []).length < st.web3.buf_size →
      Emits (eth_blockNumber st) (request_text st.web3.req_id "eth_blockNumber" [])) ∧
    ((request_text st.web3.req_id "eth_sendRawTransaction"
        (encodeDataBlob data)).length < st.web3.buf_size →
      Emits (eth_sendRawTransaction st data)
        (request_text st.web3.req_id "eth_sendRawTransaction" (encodeDataBlob data))) ∧
    ((request_text st.web3.req_id "eth_getTransactionReceipt"
        (encodeDataBlob tx_hash.h)).length < st.web3.buf_size →
      Emits (eth_getTransactionReceipt st tx_hash)
        (request_text st.web3.req_id "eth_getTransactionReceipt"
          (encodeDataBlob tx_hash.h))) ∧
    encodeAddress addr = "\"0x".toList ++ (hexstr addr.a ++ "\"".toList) ∧
    (hexstr addr.a).length = 40 ∧
    encodeDataBlob data = "\"0x".toList ++ (hexstr data ++ "\"".toList) ∧
    (hexstr data).length = 2 * data.length ∧
    (hexstr tx_hash.h).length = 64 := by
  refine ⟨fun hfit => ?_, fun hfit => ?_, fun hfit => ?_, fun hfit => ?_, fun hfit => ?_,
    rfl, ?_, rfl, ?_, ?_⟩
  · refine built_output st _ _ ?_ hsz hfit
    rw [request_text_eq, List.append_assoc]
    refine preamble_ok _ _ _ _ fun s _ => ?_
    refine Ok.seq (printaddr_ok _ _) fun s _ => ?_
    exact Ok.seq (printbuf_ok _ _) fun s _ => terminator_ok s
  · refine built_output st _ _ ?_ hsz hfit
    rw [request_text_eq, List.append_assoc]
    refine preamble_ok _ _ _ _ fun s _ => ?_
    refine Ok.seq (printaddr_ok _ _) fun s _ => ?_
    exact Ok.seq (printbuf_ok _ _) fun s _ => terminator_ok s
  · refine built_output st _ _ ?_ hsz hfit
    rw [request_text_eq, List.nil_append]
    exact preamble_ok _ _ _ _ fun s _ => terminator_ok s
  · refine built_output st _ _ ?_ hsz hfit
    rw [request_text_eq]
    refine preamble_ok _ _ _ _ fun s _ => ?_
    exact Ok.seq (printdata_ok _ _) fun s _ => terminator_ok s
  · refine built_output st _ _ ?_ hsz hfit
    rw [request_text_eq]
    refine preamble_ok _ _ _ _ fun s _ => ?_
    exact Ok.seq (printdata_ok _ _) fun s _ => terminator_ok s
  · rw [hexstr_length, addr.size]
  · rw [hexstr_length, Nat.mul_comm]
  · rw [hexstr_length, tx_hash.size]

/-- Witness of C5: the five builders on a zeroed buffer of capacity 200 with
request id 0. -/
theorem builders_emit_request_text_witness :
    Emits (eth_getTransactionCount (web3_init zero_mem 0 200) sample_addr)
      (request_text 0 "eth_getTransactionCount"
        (encodeAddress sample_addr ++ ",\"latest\"".toList)) ∧
    Emits (eth_getBalance (web3_init zero_mem 0 200) sample_addr)
      (request_text 0 "eth_getBalance" (encodeAddress sample_addr ++ ",\"latest\"".toList)) ∧
    Emits (eth_blockNumber (web3_init zero_mem 0 200))
      (request_text 0 "eth_blockNumber" []) ∧
    Emits (eth_sendRawTransaction (web3_init zero_mem 0 200) [1, 2, 3])
      (request_text 0 "eth_sendRawTransaction" (encodeDataBlob [1, 2, 3])) ∧
    Emits (eth_getTransactionReceipt (web3_init zero_mem 0 200) sample_hash)
      (request_text 0 "eth_getTransactionReceipt" (encodeDataBlob sample_hash.h)) :=
  have h := builders_emit_request_text (web3_init zero_mem 0 200) sample_addr [1, 2, 3]
    sample_hash (by decide)
  ⟨h.1 (by decide), h.2.1 (by decide), h.2.2.1 (by decide), h.2.2.2.1 (by decide),
    h.2.2.2.2.1 (by decide)⟩

/-! ## The transaction parameter -/

theorem txparam_emits (F : tx_flag_bits) (st : State)
    (sender : address_t) (tx : transaction_t) (tx_flags : Nat)
    (hsz : st.web3.buf_size < SIZE_MOD) :
    (st.web3.buf_used + (txparam_emitted F sender tx tx_flags).length < st.web3.buf_size →
      (__web3_printtxparam F st sender tx tx_flags).1 = 0 ∧
      (__web3_printtxparam F st sender tx tx_flags).2.web3.buf_used =
        st.web3.buf_used + (txparam_emitted F sender tx tx_flags).length ∧
      read (__web3_printtxparam F st sender tx tx_flags).2.mem
          (st.web3.buf + st.web3.buf_used) (txparam_emitted F sender tx tx_flags).length =
        txparam_emitted F sender tx tx_flags) ∧
    ((request_text st.web3.req_id "eth_call"
        (txparam_emitted F sender tx tx_flags)).length < st.web3.buf_size →
      Emits (eth_call F st sender tx tx_flags)
        (request_text st.web3.req_id "eth_call" (txparam_emitted F sender tx tx_flags))) ∧
    ("\x7b\"to\":".toList ++ encodeAddress tx.to_) <+: txparam_emitted F sender tx tx_flags := by
  refine ⟨fun hfit => ?_, fun hfit => call_emits F st sender tx tx_flags hsz hfit, ?_⟩
  · obtain ⟨hr, _, _, _, hu, hm, _⟩ := txparam_ok F st sender tx tx_flags hsz hfit
    exact ⟨hr, hu, hm⟩
  · unfold txparam_emitted
    simp only [List.append_assoc]
    rw [← List.append_assoc]
    exact List.prefix_append _ _

theorem printhex_text_eq (val : Nat) (h : val < 2 ^ 32) :
    printhex_text val = encodeHexUint val := by
  unfold printhex_text encodeHexUint fmt_x
  rw [Nat.mod_eq_of_lt h]

theorem txparam_emitted_eq_text (F : tx_flag_bits) (sender : address_t) (tx : transaction_t)
    (tx_flags : Nat) (hgas : tx.gas_limit < 2 ^ 32) (hprice : tx.gas_price < 2 ^ 32) :
    txparam_emitted F sender tx tx_flags = txparam_text F sender tx tx_flags := by
  unfold txparam_emitted txparam_text
  rw [printhex_text_eq _ hgas, printhex_text_eq _ hprice]

/-- C6 (the code departs from the claim): for the sample transaction with the
gas limit 2^32, no flag set and a zeroed buffer of capacity 400, both
`__web3_printtxparam` and `eth_call` return 0, yet the text they store is not
the text of the specification: the gas field holds the digits `0x0`, where
`encodeHexUint` gives `0x100000000`. -/
theorem txparam_gas_digits_truncated :
    (__web3_printtxparam sample_bits (web3_init zero_mem 0 400) sample_addr big_gas_tx 0).1
      = 0 ∧
    output (__web3_printtxparam sample_bits (web3_init zero_mem 0 400) sample_addr
      big_gas_tx 0) ≠ txparam_text sample_bits sample_addr big_gas_tx 0 ∧
    (eth_call sample_bits (web3_init zero_mem 0 400) sample_addr big_gas_tx 0).1 = 0 ∧
    output (eth_call sample_bits (web3_init zero_mem 0 400) sample_addr big_gas_tx 0) ≠
      request_text 0 "eth_call" (txparam_text sample_bits sample_addr big_gas_tx 0) ∧
    output (eth_call sample_bits (web3_init zero_mem 0 400) sample_addr big_gas_tx 0) =
      request_text 0 "eth_call" (txparam_emitted sample_bits sample_addr big_gas_tx 0) ∧
    encodeHexUint big_gas_tx.gas_limit = "\"0x100000000\"".toList ∧
    printhex_text big_gas_tx.gas_limit = "\"0x0\"".toList := by
  decide

/-- C8 (the code departs from the claim): for the value 2^32 and a buffer of
capacity 64 `__web3_printhex` returns 0 and appends the quoted text `0x0`: the
conversion `%x` formats the low 32 bits only, so the digits read back as 0. -/
theorem printhex_drops_high_bits :
    (__web3_printhex (web3_init zero_mem 0 64) 4294967296).1 = 0 ∧
    output (__web3_printhex (web3_init zero_mem 0 64) 4294967296) = "\"0x0\"".toList := by
  decide

/-- C9 (the code departs from the claim): on a zeroed buffer of capacity 44
`__web3_printaddr` returns 0 and advances the cursor by 44, yet the appended
text ends with a zero byte where the closing quote belongs. -/
theorem printaddr_succeeds_without_closing_quote :
    (__web3_printaddr (web3_init zero_mem 0 44) sample_addr).1 = 0 ∧
    (__web3_printaddr (web3_init zero_mem 0 44) sample_addr).2.web3.buf_used = 44 ∧
    output (__web3_printaddr (web3_init zero_mem 0 44) sample_addr) =
      "\"0x".toList ++ hexstr sample_addr.a ++ [NUL] ∧
    output (__web3_printaddr (web3_init zero_mem 0 44) sample_addr) ≠
      encodeAddress sample_addr := by
  decide

/-- C10 (the code departs from the claim): for the one-byte blob `ab` on a
zeroed buffer of capacity 6 `__web3_printdata` returns 0 and advances the
cursor by 6, yet the appended text ends with a zero byte where the closing
quote belongs. -/
theorem printdata_succeeds_without_closing_quote :
    (__web3_printdata (web3_init zero_mem 0 6) [171]).1 = 0 ∧
    (__web3_printdata (web3_init zero_mem 0 6) [171]).2.web3.buf_used = 6 ∧
    output (__web3_printdata (web3_init zero_mem 0 6) [171]) = "\"0xab".toList ++ [NUL] ∧
    output (__web3_printdata (web3_init zero_mem 0 6) [171]) ≠ encodeDataBlob [171] := by
  decide

/-! ## Lemmas for the unit converter -/

theorem decimal_eq (n : Nat) : decimal n = Nat.toDigits 10 n := by
  simp [decimal, toString, Nat.repr, List.asString]

theorem toDigitsCore_length_le (b : Nat) :
    ∀ (fuel n k : Nat) (ds : List Char), 1 ≤ k → n < b ^ k →
      (Nat.toDigitsCore b fuel n ds).length ≤ k + ds.length := by
  intro fuel
  induction fuel with
  | zero => intro n k ds _ _; simp [Nat.toDigitsCore]
  | succ f ih =>
    intro n k ds hk hn
    simp only [Nat.toDigitsCore]
    split
    · simp; omega
    · rename_i hne
      have hk2 : 2 ≤ k := by
        by_contra hlt
        have hk1 : k = 1 := by omega
        subst hk1
        rw [pow_one] at hn
        exact hne (Nat.div_eq_of_lt hn)
      have hdiv : n / b < b ^ (k - 1) := by
        apply Nat.div_lt_of_lt_mul
        have : b ^ k = b * b ^ (k - 1) := by
          rw [← pow_succ']; congr 1; omega
        rw [← this]; exact hn
      have := ih (n / b) (k - 1) (Nat.digitChar (n % b) :: ds) (by omega) hdiv
      simp only [List.length_cons] at this
      omega

theorem toDigits_length_le (n k : Nat) (hk : 1 ≤ k) (hn : n < 10 ^ k) :
    (Nat.toDigits 10 n).length ≤ k := by
  have := toDigitsCore_length_le 10 (n + 1) n k [] hk hn
  simpa [Nat.toDigits] using this

theorem digitChar_ne_dot : ∀ k, k < 10 → Nat.digitChar k ≠ '.' := by
  decide

theorem digitChar10_ne_nul : ∀ k, k < 10 → Nat.digitChar k ≠ NUL := by
  decide

theorem tostring256_fits (m : Memory) (val base out n : Nat)
    (h : (Nat.toDigits base val).length + 1 ≤ n) :
    tostring256 m val base out n = (write m out (Nat.toDigits base val ++ [NUL]), true) := by
  have hlt : ¬ n < (Nat.toDigits base val).length + 1 := by omega
  simp only [tostring256, hlt, if_false]

theorem strlen_digits (m : Memory) (a val : Nat)
    (h : (Nat.toDigits 10 val).length < SIZE_MOD) :
    strlen (write m a (Nat.toDigits 10 val ++ [NUL])) a SIZE_MOD
      = (Nat.toDigits 10 val).length := by
  apply strlen_eq
  · intro i hi
    rw [write_at _ _ _ _ (by simp; omega), List.getElem_append_left hi]
  · rw [write_at _ _ _ _ (by simp)]
    simp
  · exact toDigits_forall (fun c => c ≠ NUL) 10 (by decide) digitChar10_ne_nul val
  · exact h

theorem set256_pow10 (k : Nat) (hk : k ≤ 18) : set256_uint64 (10 ^ k) = 10 ^ k := by
  unfold set256_uint64
  apply Nat.mod_eq_of_lt
  calc 10 ^ k ≤ 10 ^ 18 := Nat.pow_le_pow_right (by decide) hk
    _ < 2 ^ 64 := by decide

theorem read_write_below (m : Memory) (d : Nat) (l : List Char) (a n : Nat) (h : a + n ≤ d) :
    read (write m d l) a n = read m a n := by
  apply read_congr
  intro i hi
  exact write_below _ _ _ _ (by omega)

theorem read_write_whole (m : Memory) (a : Nat) (l : List Char) :
    read (write m a l) a l.length = l := by
  simpa using read_write_same m a l []


theorem read_extend (M : Memory) (a n : Nat) (l l2 : List Char) (h : read M a n = l) :
    read (write M (a + n) l2) a (n + l2.length) = l ++ l2 := by
  rw [read_add, read_write_below _ _ _ _ _ (Nat.le_refl _), h, read_write_whole]

theorem read_keep (M : Memory) (a n : Nat) (l : List Char) (d : Nat) (l2 : List Char)
    (h : read M a n = l) (hd : a + n ≤ d) : read (write M d l2) a n = l := by
  rw [read_write_below _ _ _ _ _ hd, h]

theorem convert_down_eq (m : Memory) (amount from_ to_ buf buf_size : Nat)
    (hft : to_ ≤ from_) (h18 : from_ ≤ 18)
    (hfits : amount * 10 ^ (from_ - to_) < U256_MOD)
    (hroom : (decimal (amount * 10 ^ (from_ - to_))).length < buf_size) :
    eth_convert m amount from_ to_ buf buf_size =
      (0, write m buf (decimal (amount * 10 ^ (from_ - to_)) ++ [NUL])) := by
  rw [decimal_eq] at hroom ⊢
  have hp : set256_uint64 (10 ^ (from_ - to_)) = 10 ^ (from_ - to_) :=
    set256_pow10 _ (by omega)
  have hm : mul256 amount (10 ^ (from_ - to_)) = amount * 10 ^ (from_ - to_) :=
    Nat.mod_eq_of_lt hfits
  have ht := tostring256_fits m (amount * 10 ^ (from_ - to_)) 10 buf buf_size (by omega)
  simp only [eth_convert, ge_iff_le, hft, if_true, hp, hm, ht, Bool.true_eq_false, if_false]

theorem convert_up_eq (m : Memory) (amount from_ to_ buf buf_size : Nat)
    (hft : from_ < to_) (h18 : to_ ≤ 18) (hsz : buf_size < SIZE_MOD)
    (hroom : (fixed_point_text amount (to_ - from_)).length < buf_size) :
    (eth_convert m amount from_ to_ buf buf_size).1 = 0 ∧
    read (eth_convert m amount from_ to_ buf buf_size).2 buf
        ((fixed_point_text amount (to_ - from_)).length + 1) =
      fixed_point_text amount (to_ - from_) ++ [NUL] := by
  obtain ⟨s, rfl⟩ : ∃ s, to_ = from_ + s := ⟨to_ - from_, by omega⟩
  have hnot : ¬ from_ ≥ from_ + s := by omega
  have hp : set256_uint64 (10 ^ s) = 10 ^ s := set256_pow10 _ (by omega)
  have hz : set256_uint64 0 = 0 := rfl
  have hcast : ((from_ + s : Nat) : Int) - (from_ : Int) = (s : Int) := by
    push_cast; ring
  simp only [eth_convert, hnot, if_false, Nat.add_sub_cancel_left, hp, hz, divmod256,
    fixed_point_text, decimal_eq, hcast] at hroom ⊢
  generalize amount / 10 ^ s = q at hroom ⊢
  have hrlt : amount % 10 ^ s < 10 ^ s := Nat.mod_lt _ (by positivity)
  generalize amount % 10 ^ s = r at hroom hrlt ⊢
  have hdr : (Nat.toDigits 10 r).length ≤ s := toDigits_length_le r s (by omega) hrlt
  by_cases hr0 : r = 0
  · have hg : gt256 r 0 = false := by simp [gt256, hr0]
    simp only [hr0, ne_eq, not_true_eq_false, if_false, List.append_nil] at hroom ⊢
    have ht := tostring256_fits m q 10 buf buf_size (by omega)
    simp only [ht, Bool.true_eq_false, gt256, gt_iff_lt, lt_self_iff_false, decide_False,
      Bool.false_eq_true, if_false]
    refine ⟨trivial, ?_⟩
    simpa using read_write_whole m buf (Nat.toDigits 10 q ++ [NUL])
  · have hg : decide (r > 0) = true := by simp; omega
    simp only [hr0, ne_eq, not_false_eq_true, if_true, List.length_append, List.length_cons,
      List.length_replicate] at hroom ⊢
    have ht := tostring256_fits m q 10 buf buf_size (by omega)
    have hlen := strlen_digits m buf q (by omega)
    have hsub : size_sub buf_size ((Nat.toDigits 10 q).length + 1) =
        buf_size - ((Nat.toDigits 10 q).length + 1) := size_sub_eq _ _ hsz (by omega)
    have hlb : ¬ (Nat.toDigits 10 q).length = buf_size := by omega
    simp only [ht, Bool.true_eq_false, gt256, hg, if_true, if_false, hlen, hlb, hsub]
    have ht2 := fun m1 => tostring256_fits m1 r 10 (buf + (Nat.toDigits 10 q).length + 1)
      (buf_size - ((Nat.toDigits 10 q).length + 1)) (by omega)
    have hlen2 := fun m1 => strlen_digits m1 (buf + (Nat.toDigits 10 q).length + 1) r (by omega)
    simp only [ht2, hlen2, Bool.true_eq_false, if_false]
    generalize hQ : Nat.toDigits 10 q = dq at *
    generalize hR : Nat.toDigits 10 r = dr at *
    have e1 : buf + dq.length + 1 = buf + (dq.length + 1) := by omega
    have r0 : read (write m buf (dq ++ [NUL])) buf dq.length = dq := read_write_same _ _ _ _
    have r1 := read_extend _ buf dq.length dq ['.'] r0
    have r2 := read_keep _ buf (dq.length + ['.'].length) _ (buf + (dq.length + 1)) [NUL] r1
      (by simp)
    have r3 := read_extend _ buf (dq.length + ['.'].length) _ (dr ++ [NUL]) r2
    by_cases hpad : dr.length < s
    · have hpos : (s : Int) - (dr.length : Int) > 0 := by omega
      have htn : ((s : Int) - (dr.length : Int)).toNat = s - dr.length := by omega
      have hchk : ¬ dq.length + 1 + (s - dr.length) + 1 > buf_size := by omega
      have hsub3 : size_sub buf_size (dq.length + 1 + (s - dr.length)) =
          buf_size - (dq.length + 1 + (s - dr.length)) := size_sub_eq _ _ hsz (by omega)
      have ht3 := fun m1 => tostring256_fits m1 r 10 (buf + (dq.length + 1) + (s - dr.length))
        (buf_size - (dq.length + 1 + (s - dr.length))) (by rw [hR]; omega)
      simp only [hpos, if_true, htn, hchk, if_false, hsub3, ht3, hR, Bool.true_eq_false, e1]
      refine ⟨trivial, ?_⟩
      have r4 := read_keep _ buf (dq.length + ['.'].length) _ (buf + (dq.length + 1))
        (dr ++ [NUL]) r2 (by simp)
      have r5 := read_extend _ buf (dq.length + ['.'].length) _
        (List.replicate (s - dr.length) '0') r4
      have r6 := read_extend _ buf (dq.length + ['.'].length +
        (List.replicate (s - dr.length) '0').length) _ (dr ++ [NUL]) r5
      have e3 : buf + (dq.length + 1) + (s - dr.length) =
          buf + (dq.length + ['.'].length + (List.replicate (s - dr.length) '0').length) := by
        simp; omega
      rw [e3]
      convert r6 using 1
      · congr 1
        simp; omega
      · simp
    · have hpos : ¬ (s : Int) - (dr.length : Int) > 0 := by omega
      have hz0 : s - dr.length = 0 := by omega
      simp only [hpos, if_false, e1, hz0, List.replicate_zero, List.nil_append]
      refine ⟨trivial, ?_⟩
      convert r3 using 1
      · congr 1
        simp; omega
      · simp

/-! ## Frame, result and tail of every step -/

theorem frame_refl (st : State) : Frame st st := ⟨rfl, rfl, rfl⟩

theorem frame_trans {a b c : State} (h1 : Frame a b) (h2 : Frame b c) : Frame a c :=
  ⟨h2.1.trans h1.1, h2.2.1.trans h1.2.1, h2.2.2.trans h1.2.2⟩

theorem step_nil (st : State) : Step st [] (0, st) :=
  ⟨frame_refl st, Or.inl rfl, fun _ _ _ => ⟨by simp, id⟩⟩

theorem step_fail (st s : State) (text : List Char) (h : Frame st s) : Step st text (-1, s) :=
  ⟨h, Or.inr rfl, fun _ _ h0 => by simp at h0⟩

theorem step_seq {st : State} {t1 t2 : List Char} {p : Int × State}
    {k : State → Int × State} (h1 : Step st t1 p) (h2 : ∀ s1, Step s1 t2 (k s1)) :
    Step st (t1 ++ t2) (orFail p k) := by
  obtain ⟨f1, r1, g1⟩ := h1
  unfold orFail
  rcases r1 with r1 | r1
  · obtain ⟨f2, r2, g2⟩ := h2 p.2
    rw [r1]
    simp only [lt_self_iff_false, if_false]
    refine ⟨frame_trans f1 f2, r2, fun hsz hfit h0 => ?_⟩
    rw [List.length_append] at hfit
    obtain ⟨u1, z1⟩ := g1 hsz (by omega) r1
    obtain ⟨u2, z2⟩ := g2 (by rw [f1.2.1]; exact hsz) (by rw [u1]; omega) h0
    exact ⟨by rw [u2, u1, List.length_append]; omega, fun hz => z2 (z1 hz)⟩
  · rw [r1]
    simp only [show ((-1 : Int) < 0) from by decide, if_true]
    exact step_fail st p.2 _ f1

theorem step_ite {st : State} {t : List Char} {r : Int × State} (c : Prop) [Decidable c]
    (h : Step st t r) : Step st (if c then t else []) (if c then r else (0, st)) := by
  split
  · exact h
  · exact step_nil st

theorem getD_take_nul (l : List Char) (k j : Nat) (h : l.length ≤ j) :
    (l.take k ++ [NUL]).getD j NUL = NUL := by
  have hk : (l.take k).length ≤ j := by
    rw [List.length_take]; omega
  rw [List.getD_eq_getElem?_getD, List.getElem?_append_right hk]
  cases j - (l.take k).length with
  | zero => rfl
  | succ n => rfl

theorem write_rel (m : Memory) (b off : Nat) (l : List Char) (i : Nat) :
    write m (b + off) l (b + i) =
      if off ≤ i ∧ i < off + l.length then l.getD (i - off) NUL else m (b + i) := by
  unfold write
  have e : b + i - (b + off) = i - off := by omega
  by_cases h : off ≤ i ∧ i < off + l.length
  · have h2 : b + off ≤ b + i ∧ b + i < b + off + l.length := by omega
    rw [if_pos h, if_pos h2, e]
  · have h2 : ¬ (b + off ≤ b + i ∧ b + i < b + off + l.length) := by omega
    rw [if_neg h, if_neg h2]

theorem vsnprintf_tail (m : Memory) (b off n : Nat) (text : List Char) (i : Nat)
    (hi : off + text.length ≤ i) (hm : m (b + i) = NUL) :
    (vsnprintf m (b + off) n text).1 (b + i) = NUL := by
  unfold vsnprintf
  split
  · exact hm
  · show write m (b + off) _ (b + i) = NUL
    rw [write_rel]
    split
    · exact getD_take_nul _ _ _ (by omega)
    · exact hm

theorem printbuf_step (st : State) (text : List Char) :
    Step st text (__web3_printbuf st text) := by
  by_cases h : text.length ≥ st.web3.buf_size
  · have e : __web3_printbuf st text = (-1, { st with mem := (vsnprintf st.mem
        (st.web3.buf + st.web3.buf_used) (size_sub st.web3.buf_size st.web3.buf_used)
        text).1 }) := by
      simp only [__web3_printbuf, vsnprintf_snd, h, if_true]
    rw [e]
    exact step_fail _ _ _ ⟨rfl, rfl, rfl⟩
  · have e : __web3_printbuf st text = (0, State.mk (vsnprintf st.mem
        (st.web3.buf + st.web3.buf_used) (size_sub st.web3.buf_size st.web3.buf_used)
        text).1 (web3_ctx_t.mk st.web3.buf st.web3.buf_size
          (size_add st.web3.buf_used text.length) st.web3.req_id)) := by
      simp only [__web3_printbuf, vsnprintf_snd, h, if_false]
    rw [e]
    refine ⟨⟨rfl, rfl, rfl⟩, Or.inl rfl, fun hsz hnw _ => ?_⟩
    have hu : size_add st.web3.buf_used text.length = st.web3.buf_used + text.length :=
      size_add_eq _ _ hnw
    refine ⟨hu, fun hz i hi1 hi2 => ?_⟩
    simp only [hu] at hi1
    exact vsnprintf_tail _ _ _ _ _ _ hi1 (hz i (by omega) hi2)

theorem printbuf_ret (st : State) (text : List Char) :
    (__web3_printbuf st text).1 = 0 ∨ (__web3_printbuf st text).1 = -1 :=
  (printbuf_step st text).2.1


theorem hexcopy_step (st : State) (inp : List Nat) (least : Int) :
    Step st (hexstr inp) (hexcopy st inp least) := by
  unfold hexcopy bintohex_nonull
  by_cases h : size_sub st.web3.buf_size st.web3.buf_used < inp.length * 2
  · simp only [h, if_true, show ((-1 : Int) < 0) from by decide]
    exact step_fail _ _ _ ⟨rfl, rfl, rfl⟩
  · have hneg : ¬ ((inp.length * 2 : Nat) : Int) < 0 := by omega
    simp only [h, if_false, hneg, Int.toNat_ofNat]
    split
    · exact step_fail _ _ _ ⟨rfl, rfl, rfl⟩
    · refine ⟨⟨rfl, rfl, rfl⟩, Or.inl rfl, fun hsz hnw _ => ?_⟩
      rw [hexstr_length] at hnw ⊢
      have hu : size_add st.web3.buf_used (inp.length * 2)
          = st.web3.buf_used + inp.length * 2 := size_add_eq _ _ hnw
      refine ⟨hu, fun hz i hi1 hi2 => ?_⟩
      simp only [hu] at hi1
      show write st.mem (st.web3.buf + st.web3.buf_used) (hexstr inp) (st.web3.buf + i) = NUL
      rw [write_rel, hexstr_length, if_neg (by omega)]
      exact hz i (by omega) hi2

theorem digitscopy_step (st : State) (val : Nat) :
    Step st (Nat.toDigits 16 val) (digitscopy st val) := by
  unfold digitscopy tostring256
  split
  · simp only [if_true]
    exact step_fail _ _ _ ⟨rfl, rfl, rfl⟩
  · simp only [Bool.true_eq_false, if_false]
    refine ⟨⟨rfl, rfl, rfl⟩, Or.inl rfl, fun hsz hnw _ => ?_⟩
    have hlen : strlen (write st.mem (st.web3.buf + st.web3.buf_used)
        (Nat.toDigits 16 val ++ [NUL])) (st.web3.buf + st.web3.buf_used) SIZE_MOD
        = (Nat.toDigits 16 val).length := by
      apply strlen_eq
      · intro i hi
        rw [write_at _ _ _ _ (by simp; omega), List.getElem_append_left hi]
      · rw [write_at _ _ _ _ (by simp)]
        simp
      · exact toDigits_forall (fun c => c ≠ NUL) 16 (by decide) digitChar_ne_nul val
      · omega
    simp only [hlen]
    have hu : size_add st.web3.buf_used (Nat.toDigits 16 val).length
        = st.web3.buf_used + (Nat.toDigits 16 val).length := size_add_eq _ _ hnw
    refine ⟨hu, fun hz i hi1 hi2 => ?_⟩
    simp only [hu] at hi1
    show write st.mem (st.web3.buf + st.web3.buf_used) (Nat.toDigits 16 val ++ [NUL])
      (st.web3.buf + i) = NUL
    rw [write_rel]
    split
    · have := getD_take_nul (Nat.toDigits 16 val) (Nat.toDigits 16 val).length
        (i - st.web3.buf_used) (by omega)
      simpa using this
    · exact hz i (by omega) hi2

theorem printaddr_eq (st : State) (addr : address_t) :
    __web3_printaddr st addr =
      orFail (__web3_printbuf st "\"0x".toList) fun s1 =>
      orFail (hexcopy s1 addr.a 40) fun s2 =>
      orFail (__web3_printbuf s2 "\"".toList) fun s => (0, s) := by
  unfold __web3_printaddr orFail hexcopy
  rcases printbuf_ret st "\"0x".toList with h | h
  · simp only [h, lt_self_iff_false, if_false]
    split
    · rfl
    · split
      · rfl
      · simp only [lt_self_iff_false, if_false]
        split
        · rename_i hq
          rcases printbuf_ret _ "\"".toList with h2 | h2
          · rw [h2] at hq; exact absurd hq (by decide)
          · rw [h2]
        · rfl
  · simp only [h, show ((-1 : Int) < 0) from by decide, if_true]


theorem printdata_eq (st : State) (buf : List Nat)
    (h : ¬ buf.length ≥ size_sub st.web3.buf_size st.web3.buf_used) :
    __web3_printdata st buf =
      orFail (__web3_printbuf st "\"0x".toList) fun s1 =>
      orFail (hexcopy s1 buf 0) fun s2 =>
      orFail (__web3_printbuf s2 "\"".toList) fun s => (0, s) := by
  unfold __web3_printdata orFail hexcopy
  simp only [h, if_false]
  rcases printbuf_ret st "\"0x".toList with h | h
  · simp only [h, lt_self_iff_false, if_false]
    split
    · rfl
    · simp only [lt_self_iff_false, if_false]
      split
      · rename_i hq
        rcases printbuf_ret _ "\"".toList with h2 | h2
        · rw [h2] at hq; exact absurd hq (by decide)
        · rw [h2]
      · rfl
  · simp only [h, show ((-1 : Int) < 0) from by decide, if_true]

theorem printuint256_eq (st : State) (val : Nat) :
    __web3_printuint256 st val =
      orFail (__web3_printbuf st "\"0x".toList) fun s1 =>
      orFail (digitscopy s1 val) fun s2 =>
      orFail (__web3_printbuf s2 "\"".toList) fun s => (0, s) := by
  unfold __web3_printuint256 orFail digitscopy
  rcases printbuf_ret st "\"0x".toList with h | h
  · simp only [h, lt_self_iff_false, if_false]
    split
    · rfl
    · simp only [lt_self_iff_false, if_false]
      split
      · rename_i hq
        rcases printbuf_ret _ "\"".toList with h2 | h2
        · rw [h2] at hq; exact absurd hq (by decide)
        · rw [h2]
      · rfl
  · simp only [h, show ((-1 : Int) < 0) from by decide, if_true]

theorem printaddr_step (st : State) (addr : address_t) :
    Step st (quoted_hex addr.a) (__web3_printaddr st addr) := by
  rw [printaddr_eq]
  refine step_seq (printbuf_step _ _) fun s1 => step_seq (hexcopy_step _ _ _) fun s2 => ?_
  have h := step_seq (printbuf_step s2 "\"".toList) fun s => step_nil s
  simpa using h

theorem printdata_step (st : State) (buf : List Nat) :
    Step st (quoted_hex buf) (__web3_printdata st buf) := by
  by_cases h : buf.length ≥ size_sub st.web3.buf_size st.web3.buf_used
  · have e : __web3_printdata st buf = (-1, st) := by
      simp only [__web3_printdata, h, if_true]
    rw [e]
    exact step_fail _ _ _ (frame_refl st)
  · rw [printdata_eq st buf h]
    refine step_seq (printbuf_step _ _) fun s1 => step_seq (hexcopy_step _ _ _) fun s2 => ?_
    have h := step_seq (printbuf_step s2 "\"".toList) fun s => step_nil s
    simpa using h

theorem printuint256_step (st : State) (val : Nat) :
    Step st (quoted_uint256 val) (__web3_printuint256 st val) := by
  rw [printuint256_eq]
  refine step_seq (printbuf_step _ _) fun s1 => step_seq (digitscopy_step _ _) fun s2 => ?_
  have h := step_seq (printbuf_step s2 "\"".toList) fun s => step_nil s
  simpa using h

theorem printhex_step (st : State) (val : Nat) :
    Step st (printhex_text val) (__web3_printhex st val) :=
  printbuf_step st _


theorem txparam_emitted_nested (F : tx_flag_bits) (sender : address_t) (tx : transaction_t)
    (tx_flags : Nat) :
    txparam_emitted F sender tx tx_flags =
      "\x7b".toList ++ ("\"to\":".toList ++ (quoted_hex tx.to_.a ++
        ((if tx_flags &&& F.TX_NO_FROM = 0 then
            ",\"from\":".toList ++ (quoted_hex sender.a ++ []) else []) ++
        ((if tx_flags &&& F.TX_NO_GAS = 0 then
            ",\"gas\":".toList ++ (printhex_text tx.gas_limit ++ []) else []) ++
        ((if tx_flags &&& F.TX_NO_GASPRICE = 0 then
            ",\"gasPrice\":".toList ++ (printhex_text tx.gas_price ++ []) else []) ++
        ((if tx_flags &&& F.TX_NO_VALUE = 0 then
            ",\"value\":".toList ++ (quoted_uint256 tx.value ++ []) else []) ++
        ((match tx.data with
          | some d =>
            if tx.data_len ≠ 0 ∧ tx_flags &&& F.TX_NO_DATA = 0 then
              ",\"data\":".toList ++ (quoted_hex (d.take tx.data_len) ++ []) else []
          | none => []) ++
        ("\x7d".toList ++ (",\"latest\"".toList ++ []))))))))) := by
  unfold txparam_emitted encodeAddress encodeUint256 encodeDataBlob
  cases tx.data with
  | none => simp
  | some d => simp [and_comm]

theorem txparam_step (F : tx_flag_bits) (st : State) (sender : address_t)
    (tx : transaction_t) (tx_flags : Nat) :
    Step st (txparam_emitted F sender tx tx_flags)
      (__web3_printtxparam F st sender tx tx_flags) := by
  rw [txparam_emitted_nested]
  unfold __web3_printtxparam
  refine step_seq (printbuf_step _ _) fun s => ?_
  refine step_seq (printbuf_step _ _) fun s => ?_
  refine step_seq (printaddr_step _ _) fun s => ?_
  refine step_seq (step_ite _ (step_seq (printbuf_step _ _) fun s =>
    step_seq (printaddr_step _ _) fun s => step_nil s)) fun s => ?_
  refine step_seq (step_ite _ (step_seq (printbuf_step _ _) fun s =>
    step_seq (printhex_step _ _) fun s => step_nil s)) fun s => ?_
  refine step_seq (step_ite _ (step_seq (printbuf_step _ _) fun s =>
    step_seq (printhex_step _ _) fun s => step_nil s)) fun s => ?_
  refine step_seq (step_ite _ (step_seq (printbuf_step _ _) fun s =>
    step_seq (printuint256_step _ _) fun s => step_nil s)) fun s => ?_
  refine step_seq ?_ fun s => ?_
  · cases tx.data with
    | none => exact step_nil s
    | some d =>
      exact step_ite _ (step_seq (printbuf_step _ _) fun s =>
        step_seq (printdata_step _ _) fun s => step_nil s)
  · refine step_seq (printbuf_step _ _) fun s => ?_
    exact step_seq (printbuf_step _ _) fun s => step_nil s

theorem preamble_step (func : String) (st : State) (k : State → Int × State) (T : List Char)
    (h : ∀ s1, Step s1 T (k s1)) :
    Step (__web3_resetbuf st) (JSONRPC_HEADER st.web3.req_id func ++ T)
      (WEB3_PREAMBLE func st k) :=
  step_seq (printbuf_step _ _) h

theorem terminator_step (st : State) :
    Step st (JSONRPC_TERMINATOR ++ []) (WEB3_TERMINATOR st) :=
  step_seq (printbuf_step _ _) fun s => step_nil s

theorem reset_tail (st : State) : TailZero (__web3_resetbuf st) := by
  intro i _ hi
  simp only [__web3_resetbuf, memset0] at hi ⊢
  rw [if_pos ⟨by omega, by omega⟩]

/-- What a builder guarantees, derived from its steps: the frame of the
context is kept, the result is 0 or -1, and after a result of 0 the tail of the
buffer is zero. -/
theorem built_frame_tail (st : State) (T : List Char) (r : Int × State)
    (h : Step (__web3_resetbuf st) T r) :
    Frame st r.2 ∧ (r.1 = 0 ∨ r.1 = -1) ∧
    (st.web3.buf_size < SIZE_MOD → T.length < SIZE_MOD → r.1 = 0 → TailZero r.2) := by
  obtain ⟨f, rr, g⟩ := h
  refine ⟨f, rr, fun hsz hT h0 => ?_⟩
  exact (g hsz (by simpa [__web3_resetbuf] using hT) h0).2 (reset_tail st)

theorem getTransactionCount_step (st : State) (addr : address_t) :
    Step (__web3_resetbuf st)
      (request_text st.web3.req_id "eth_getTransactionCount"
        (encodeAddress addr ++ ",\"latest\"".toList))
      (eth_getTransactionCount st addr) := by
  rw [request_text_eq, List.append_assoc]
  refine preamble_step _ _ _ _ fun s => ?_
  refine step_seq (printaddr_step _ _) fun s => ?_
  exact step_seq (printbuf_step _ _) fun s => terminator_step s

theorem getBalance_step (st : State) (addr : address_t) :
    Step (__web3_resetbuf st)
      (request_text st.web3.req_id "eth_getBalance"
        (encodeAddress addr ++ ",\"latest\"".toList))
      (eth_getBalance st addr) := by
  rw [request_text_eq, List.append_assoc]
  refine preamble_step _ _ _ _ fun s => ?_
  refine step_seq (printaddr_step _ _) fun s => ?_
  exact step_seq (printbuf_step _ _) fun s => terminator_step s

theorem blockNumber_step (st : State) :
    Step (__web3_resetbuf st) (request_text st.web3.req_id "eth_blockNumber" [])
      (eth_blockNumber st) := by
  rw [request_text_eq, List.nil_append]
  exact preamble_step _ _ _ _ fun s => terminator_step s

theorem sendRawTransaction_step (st : State) (data : List Nat) :
    Step (__web3_resetbuf st)
      (request_text st.web3.req_id "eth_sendRawTransaction" (encodeDataBlob data))
      (eth_sendRawTransaction st data) := by
  rw [request_text_eq]
  refine preamble_step _ _ _ _ fun s => ?_
  exact step_seq (printdata_step _ _) fun s => terminator_step s

theorem getTransactionReceipt_step (st : State) (tx_hash : tx_hash_t) :
    Step (__web3_resetbuf st)
      (request_text st.web3.req_id "eth_getTransactionReceipt" (encodeDataBlob tx_hash.h))
      (eth_getTransactionReceipt st tx_hash) := by
  rw [request_text_eq]
  refine preamble_step _ _ _ _ fun s => ?_
  exact step_seq (printdata_step _ _) fun s => terminator_step s

theorem call_step (F : tx_flag_bits) (st : State) (sender : address_t) (tx : transaction_t)
    (tx_flags : Nat) :
    Step (__web3_resetbuf st)
      (request_text st.web3.req_id "eth_call" (txparam_emitted F sender tx tx_flags))
      (eth_call F st sender tx tx_flags) := by
  rw [request_text_eq]
  refine preamble_step _ _ _ _ fun s => ?_
  exact step_seq (txparam_step _ _ _ _ _) fun s => terminator_step s

theorem estimateGas_step (F : tx_flag_bits) (st : State) (sender : address_t)
    (tx : transaction_t) :
    Step (__web3_resetbuf st)
      (request_text st.web3.req_id "eth_estimateGas" (txparam_emitted F sender tx 0))
      (eth_estimateGas F st sender tx) := by
  rw [request_text_eq]
  refine preamble_step _ _ _ _ fun s => ?_
  exact step_seq (txparam_step _ _ _ _ _) fun s => terminator_step s

/-! ## Two contexts with the same view -/

theorem SameView.of_reset (s1 s2 : State) (hc : s1.web3.buf_size = s2.web3.buf_size)
    (hi : s1.web3.req_id = s2.web3.req_id) :
    SameView (__web3_resetbuf s1) (__web3_resetbuf s2) := by
  refine ⟨hc, rfl, hi, fun i h => ?_⟩
  simp only [__web3_resetbuf, memset0] at h ⊢
  rw [if_pos ⟨by omega, by omega⟩, if_pos ⟨by omega, by omega⟩]

theorem vsnprintf_same (m1 m2 : Memory) (b1 b2 off n : Nat) (text : List Char) (i : Nat)
    (h : m1 (b1 + i) = m2 (b2 + i)) :
    (vsnprintf m1 (b1 + off) n text).1 (b1 + i) = (vsnprintf m2 (b2 + off) n text).1 (b2 + i) := by
  unfold vsnprintf
  split
  · exact h
  · show write m1 (b1 + off) _ (b1 + i) = write m2 (b2 + off) _ (b2 + i)
    rw [write_rel, write_rel, h]

theorem printbuf_same (s1 s2 : State) (text : List Char) (h : SameView s1 s2) :
    SameResult (__web3_printbuf s1 text) (__web3_printbuf s2 text) := by
  obtain ⟨hc, hu, hi, hm⟩ := h
  simp only [__web3_printbuf, vsnprintf_snd, hc, hu]
  have hv : ∀ i, i < s1.web3.buf_size →
      (vsnprintf s1.mem (s1.web3.buf + s2.web3.buf_used)
        (size_sub s2.web3.buf_size s2.web3.buf_used) text).1 (s1.web3.buf + i) =
      (vsnprintf s2.mem (s2.web3.buf + s2.web3.buf_used)
        (size_sub s2.web3.buf_size s2.web3.buf_used) text).1 (s2.web3.buf + i) :=
    fun i hlt => vsnprintf_same _ _ _ _ _ _ _ _ (hm i hlt)
  split
  · exact ⟨rfl, hc, hu, hi, hv⟩
  · exact ⟨rfl, rfl, rfl, hi, fun i hlt => hv i (by rw [hc]; exact hlt)⟩

theorem hexcopy_same (s1 s2 : State) (inp : List Nat) (least : Int) (h : SameView s1 s2) :
    SameResult (hexcopy s1 inp least) (hexcopy s2 inp least) := by
  obtain ⟨hc, hu, hi, hm⟩ := h
  simp only [hexcopy, bintohex_nonull, hc, hu]
  split
  · simp only [show ((-1 : Int) < 0) from by decide, if_true]
    exact ⟨rfl, hc, hu, hi, hm⟩
  · have hneg : ¬ ((inp.length * 2 : Nat) : Int) < 0 := by omega
    simp only [hneg, if_false]
    have hw : ∀ i, i < s1.web3.buf_size →
        write s1.mem (s1.web3.buf + s2.web3.buf_used) (hexstr inp) (s1.web3.buf + i) =
        write s2.mem (s2.web3.buf + s2.web3.buf_used) (hexstr inp) (s2.web3.buf + i) := by
      intro i hlt
      rw [write_rel, write_rel, hm i hlt]
    split
    · exact ⟨rfl, hc, hu, hi, hw⟩
    · exact ⟨rfl, rfl, rfl, hi, fun i hlt => hw i (by rw [hc]; exact hlt)⟩

theorem orFail_same (p1 p2 : Int × State) (k1 k2 : State → Int × State)
    (hp : SameResult p1 p2)
    (hk : ∀ s1 s2, SameView s1 s2 → SameResult (k1 s1) (k2 s2)) :
    SameResult (orFail p1 k1) (orFail p2 k2) := by
  unfold orFail
  rw [hp.1]
  split
  · exact ⟨rfl, hp.2⟩
  · exact hk _ _ hp.2

theorem printaddr_same (s1 s2 : State) (addr : address_t) (h : SameView s1 s2) :
    SameResult (__web3_printaddr s1 addr) (__web3_printaddr s2 addr) := by
  rw [printaddr_eq, printaddr_eq]
  refine orFail_same _ _ _ _ (printbuf_same _ _ _ h) fun a1 a2 ha => ?_
  refine orFail_same _ _ _ _ (hexcopy_same _ _ _ _ ha) fun b1 b2 hb => ?_
  exact orFail_same _ _ _ _ (printbuf_same _ _ _ hb) fun c1 c2 hcc => ⟨rfl, hcc⟩

theorem getBalance_same (s1 s2 : State) (addr : address_t)
    (hc : s1.web3.buf_size = s2.web3.buf_size) (hi : s1.web3.req_id = s2.web3.req_id) :
    SameResult (eth_getBalance s1 addr) (eth_getBalance s2 addr) := by
  unfold eth_getBalance WEB3_PREAMBLE WEB3_TERMINATOR
  have h0 := SameView.of_reset s1 s2 hc hi
  have hid : (__web3_resetbuf s1).web3.req_id = (__web3_resetbuf s2).web3.req_id := hi
  simp only [hid]
  refine orFail_same _ _ _ _ (printbuf_same _ _ _ h0) fun a1 a2 ha => ?_
  refine orFail_same _ _ _ _ (printaddr_same _ _ _ ha) fun b1 b2 hb => ?_
  refine orFail_same _ _ _ _ (printbuf_same _ _ _ hb) fun c1 c2 hcc => ?_
  exact orFail_same _ _ _ _ (printbuf_same _ _ _ hcc) fun d1 d2 hd => ⟨rfl, hd⟩

/-! ## The unit converter -/

theorem decimal_no_dot (n : Nat) : '.' ∉ decimal n := by
  rw [decimal_eq]
  intro h
  exact toDigits_forall (fun c => c ≠ '.') 10 (by decide) digitChar_ne_dot n _ h rfl

/-- C11: for unit ordinals with `to ≤ from ≤ 18`, an amount whose product with
`10 ^ (from - to)` fits in 256 bits and a buffer longer than the text,
`eth_convert` returns 0 and stores the decimal rendering of
`amount * 10 ^ (from - to)` with its terminating zero byte; the text holds no
dot. -/
theorem convert_to_smaller_unit (m : Memory) (amount from_ to_ buf buf_size : Nat)
    (hft : to_ ≤ from_) (h18 : from_ ≤ 18)
    (hfits : amount * 10 ^ (from_ - to_) < U256_MOD)
    (hroom : (decimal (amount * 10 ^ (from_ - to_))).length < buf_size) :
    (eth_convert m amount from_ to_ buf buf_size).1 = 0 ∧
    read (eth_convert m amount from_ to_ buf buf_size).2 buf
        ((decimal (amount * 10 ^ (from_ - to_))).length + 1) =
      decimal (amount * 10 ^ (from_ - to_)) ++ [NUL] ∧
    '.' ∉ decimal (amount * 10 ^ (from_ - to_)) := by
  rw [convert_down_eq m amount from_ to_ buf buf_size hft h18 hfits hroom]
  refine ⟨rfl, ?_, decimal_no_dot _⟩
  simpa using read_write_whole m buf (decimal (amount * 10 ^ (from_ - to_)) ++ [NUL])

/-- Witness of C11: one ether in wei, in a buffer of 32 bytes at address
100. -/
theorem convert_to_smaller_unit_witness :
    (eth_convert z_mem 1 18 0 100 32).1 = 0 ∧
    read (eth_convert z_mem 1 18 0 100 32).2 100 ((decimal (1 * 10 ^ (18 - 0))).length + 1) =
      decimal (1 * 10 ^ (18 - 0)) ++ [NUL] ∧
    decimal (1 * 10 ^ (18 - 0)) = "1000000000000000000".toList :=
  have h := convert_to_smaller_unit z_mem 1 18 0 100 32 (by decide) (by decide) (by decide)
    (by decide)
  ⟨h.1, h.2.1, by decide⟩

theorem convert_samples :
    read (eth_convert z_mem 1 18 0 100 32).2 100 20 = "1000000000000000000".toList ++ [NUL] ∧
    read (eth_convert z_mem 123 0 0 100 32).2 100 4 = "123".toList ++ [NUL] ∧
    read (eth_convert z_mem 1000000000000000000 0 18 100 32).2 100 2 = "1".toList ++ [NUL] := by
  decide

/-- C12: for unit ordinals with `from < to ≤ 18` and a buffer (of `size_t`
length) longer than the text, `eth_convert` returns 0 and stores, with its
terminating zero byte, the quotient of the amount by `10 ^ (to - from)` in
decimal, followed exactly when the remainder is not zero by a dot and the
remainder in decimal, left-padded with zeros to `to - from` digits. -/
theorem convert_to_larger_unit (m : Memory) (amount from_ to_ buf buf_size : Nat)
    (hft : from_ < to_) (h18 : to_ ≤ 18) (hsz : buf_size < SIZE_MOD)
    (hroom : (fixed_point_text amount (to_ - from_)).length < buf_size) :
    (eth_convert m amount from_ to_ buf buf_size).1 = 0 ∧
    read (eth_convert m amount from_ to_ buf buf_size).2 buf
        ((fixed_point_text amount (to_ - from_)).length + 1) =
      fixed_point_text amount (to_ - from_) ++ [NUL] ∧
    ('.' ∈ fixed_point_text amount (to_ - from_) ↔ amount % 10 ^ (to_ - from_) ≠ 0) ∧
    (List.replicate (to_ - from_ - (decimal (amount % 10 ^ (to_ - from_))).length) '0' ++
      decimal (amount % 10 ^ (to_ - from_))).length = to_ - from_ := by
  obtain ⟨h1, h2⟩ := convert_up_eq m amount from_ to_ buf buf_size hft h18 hsz hroom
  refine ⟨h1, h2, ?_, ?_⟩
  · unfold fixed_point_text
    by_cases hr : amount % 10 ^ (to_ - from_) = 0
    · simp [hr, decimal_no_dot]
    · simp [hr]
  · have hlt : amount % 10 ^ (to_ - from_) < 10 ^ (to_ - from_) :=
      Nat.mod_lt _ (by positivity)
    have := toDigits_length_le _ (to_ - from_) (by omega) hlt
    rw [decimal_eq, List.length_append, List.length_replicate]
    omega

/-- Witness of C12: wei to ether in a buffer of 32 bytes at address 100, for
an amount with the remainder 5, padded with 17 zeros. -/
theorem convert_to_larger_unit_witness :
    (eth_convert z_mem 1000000000000000005 0 18 100 32).1 = 0 ∧
    read (eth_convert z_mem 1000000000000000005 0 18 100 32).2 100
        ((fixed_point_text 1000000000000000005 (18 - 0)).length + 1) =
      fixed_point_text 1000000000000000005 (18 - 0) ++ [NUL] ∧
    fixed_point_text 1000000000000000005 (18 - 0) = "1.000000000000000005".toList ∧
    fixed_point_text 1000000000000000000 (18 - 0) = "1".toList :=
  have h := convert_to_larger_unit z_mem 1000000000000000005 0 18 100 32 (by decide)
    (by decide) (by decide) (by decide)
  ⟨h.1, h.2.1, by decide, by decide⟩

/-- C13 (the claim fails): for 1500000000000000000 wei converted to ether in a
buffer of 64 bytes the stored string is not `1.5`. -/
theorem convert_one_and_a_half_not_trimmed :
    read (eth_convert z_mem 1500000000000000000 0 18 100 64).2 100 4 ≠
      "1.5".toList ++ [NUL] := by
  decide

/-- C13 (amended): for 1500000000000000000 wei converted to ether in a buffer
(of `size_t` length) of more than 20 bytes `eth_convert` returns 0 and stores
the string `1.500000000000000000`: the remainder keeps its trailing zeros. -/
theorem convert_one_and_a_half (m : Memory) (buf buf_size : Nat) (hsz : buf_size < SIZE_MOD)
    (hroom : 20 < buf_size) :
    (eth_convert m 1500000000000000000 0 18 buf buf_size).1 = 0 ∧
    read (eth_convert m 1500000000000000000 0 18 buf buf_size).2 buf 21 =
      "1.500000000000000000".toList ++ [NUL] := by
  have e : fixed_point_text 1500000000000000000 (18 - 0) = "1.500000000000000000".toList := by
    decide
  have h := convert_up_eq m 1500000000000000000 0 18 buf buf_size (by decide) (by decide) hsz
    (by rw [e]; exact hroom)
  rw [e] at h
  exact h

/-- Witness of the amended C13: a buffer of 64 bytes at address 100. -/
theorem convert_one_and_a_half_witness :
    (eth_convert z_mem 1500000000000000000 0 18 100 64).1 = 0 ∧
    read (eth_convert z_mem 1500000000000000000 0 18 100 64).2 100 21 =
      "1.500000000000000000".toList ++ [NUL] :=
  convert_one_and_a_half z_mem 100 64 (by decide) (by decide)

/-- C14 (the code departs from the claim): for 1500000000000000000 wei
converted to ether into a buffer of 2 bytes at address 100, the integer part
`1` fills `buf_size - 1` characters and the remainder is not zero; the call
returns -1, yet the byte at index 2, the first one past the buffer, has been
overwritten with the zero byte that follows the dot. -/
theorem convert_writes_past_buffer :
    (eth_convert z_mem 1500000000000000000 0 18 100 2).1 = -1 ∧
    z_mem (100 + 2) = 'Z' ∧
    (eth_convert z_mem 1500000000000000000 0 18 100 2).2 (100 + 2) = NUL ∧
    (eth_convert z_mem 1500000000000000000 0 18 100 2).2 (100 + 1) = '.' := by
  decide

/-! ## Reset, frame and tail of the request builders -/

theorem read_ext (m1 m2 : Memory) (a1 a2 n : Nat)
    (h : ∀ i, i < n → m1 (a1 + i) = m2 (a2 + i)) : read m1 a1 n = read m2 a2 n := by
  apply List.ext_getElem
  · simp [read]
  · intro i h1 h2
    simp [read] at h1 ⊢
    exact h i h1

/-- C15: for two contexts with the same capacity and request id, whatever
their buffer addresses, buffer contents and cursors, `eth_getBalance` with the
same address yields the same return value, the same cursor and the same bytes
in the whole buffer. -/
theorem getBalance_independent_of_prior_state (s1 s2 : State) (addr : address_t)
    (hc : s1.web3.buf_size = s2.web3.buf_size) (hi : s1.web3.req_id = s2.web3.req_id) :
    (eth_getBalance s1 addr).1 = (eth_getBalance s2 addr).1 ∧
    (eth_getBalance s1 addr).2.web3.buf_used = (eth_getBalance s2 addr).2.web3.buf_used ∧
    read (eth_getBalance s1 addr).2.mem s1.web3.buf s1.web3.buf_size =
      read (eth_getBalance s2 addr).2.mem s2.web3.buf s2.web3.buf_size := by
  obtain ⟨hr, hcap, hu, _, hm⟩ := getBalance_same s1 s2 addr hc hi
  have f1 := (getBalance_step s1 addr).1
  have f2 := (getBalance_step s2 addr).1
  refine ⟨hr, hu, ?_⟩
  rw [← hc]
  apply read_ext
  intro i hlt
  have := hm i (by rw [f1.2.1]; exact hlt)
  rw [f1.1, f2.1] at this
  exact this

/-- Witness of C15: a context whose buffer was full of the letter `Z` with
cursor 17, against a freshly initialised one at another address. -/
theorem getBalance_independent_of_prior_state_witness :
    (eth_getBalance dirty_state sample_addr).1 =
      (eth_getBalance (web3_init zero_mem 0 200) sample_addr).1 ∧
    (eth_getBalance dirty_state sample_addr).2.web3.buf_used =
      (eth_getBalance (web3_init zero_mem 0 200) sample_addr).2.web3.buf_used ∧
    read (eth_getBalance dirty_state sample_addr).2.mem dirty_state.web3.buf
        dirty_state.web3.buf_size =
      read (eth_getBalance (web3_init zero_mem 0 200) sample_addr).2.mem
        (web3_init zero_mem 0 200).web3.buf (web3_init zero_mem 0 200).web3.buf_size :=
  getBalance_independent_of_prior_state dirty_state (web3_init zero_mem 0 200) sample_addr
    rfl rfl

/-- C16 (the claim fails): `eth_blockNumber` on a zeroed buffer of capacity 10
returns -1 with the cursor at 0, and the byte at index 0 is the opening brace
of the truncated header, not zero. -/
theorem failed_call_leaves_nonzero_tail :
    (eth_blockNumber (web3_init zero_mem 0 10)).1 = -1 ∧
    ¬ TailZero (eth_blockNumber (web3_init zero_mem 0 10)).2 := by
  refine ⟨by decide, fun h => ?_⟩
  exact absurd (h 0 (by decide) (by decide)) (by decide)

/-- C16 (amended): after every request-building call that returns 0, the
capacity and the length of the request text being `size_t` values, every byte
of the buffer at an index from the cursor up to the capacity is zero. -/
theorem successful_call_leaves_zero_tail (F : tx_flag_bits) (st : State) (addr : address_t)
    (data : List Nat) (tx_hash : tx_hash_t) (sender : address_t) (tx : transaction_t)
    (tx_flags : Nat) (hsz : st.web3.buf_size < SIZE_MOD) :
    ((request_text st.web3.req_id "eth_getTransactionCount"
        (encodeAddress addr ++ ",\"latest\"".toList)).length < SIZE_MOD →
      (eth_getTransactionCount st addr).1 = 0 → TailZero (eth_getTransactionCount st addr).2) ∧
    ((request_text st.web3.req_id "eth_blockNumber" []).length < SIZE_MOD →
      (eth_blockNumber st).1 = 0 → TailZero (eth_blockNumber st).2) ∧
    ((request_text st.web3.req_id "eth_sendRawTransaction"
        (encodeDataBlob data)).length < SIZE_MOD →
      (eth_sendRawTransaction st data).1 = 0 → TailZero (eth_sendRawTransaction st data).2) ∧
    ((request_text st.web3.req_id "eth_getBalance"
        (encodeAddress addr ++ ",\"latest\"".toList)).length < SIZE_MOD →
      (eth_getBalance st addr).1 = 0 → TailZero (eth_getBalance st addr).2) ∧
    ((request_text st.web3.req_id "eth_call"
        (txparam_emitted F sender tx tx_flags)).length < SIZE_MOD →
      (eth_call F st sender tx tx_flags).1 = 0 →
      TailZero (eth_call F st sender tx tx_flags).2) ∧
    ((request_text st.web3.req_id "eth_estimateGas"
        (txparam_emitted F sender tx 0)).length < SIZE_MOD →
      (eth_estimateGas F st sender tx).1 = 0 → TailZero (eth_estimateGas F st sender tx).2) ∧
    ((request_text st.web3.req_id "eth_getTransactionReceipt"
        (encodeDataBlob tx_hash.h)).length < SIZE_MOD →
      (eth_getTransactionReceipt st tx_hash).1 = 0 →
      TailZero (eth_getTransactionReceipt st tx_hash).2) :=
  ⟨(built_frame_tail st _ _ (getTransactionCount_step st addr)).2.2 hsz,
   (built_frame_tail st _ _ (blockNumber_step st)).2.2 hsz,
   (built_frame_tail st _ _ (sendRawTransaction_step st data)).2.2 hsz,
   (built_frame_tail st _ _ (getBalance_step st addr)).2.2 hsz,
   (built_frame_tail st _ _ (call_step F st sender tx tx_flags)).2.2 hsz,
   (built_frame_tail st _ _ (estimateGas_step F st sender tx)).2.2 hsz,
   (built_frame_tail st _ _ (getTransactionReceipt_step st tx_hash)).2.2 hsz⟩

/-- Witness of the amended C16: `eth_getBalance` on a buffer of capacity 200
that was full of the letter `Z`. -/
theorem successful_call_leaves_zero_tail_witness :
    TailZero (eth_getBalance dirty_state sample_addr).2 :=
  (successful_call_leaves_zero_tail sample_bits dirty_state sample_addr [1, 2, 3] sample_hash
    sample_addr sample_tx 0 (by decide)).2.2.2.1 (by decide) (by decide)

/-- C17 (the claim fails): for the sample transaction on a buffer of capacity
400 the output of `eth_estimateGas` is not the envelope around the transaction
object alone. -/
theorem estimateGas_params_not_object_alone :
    output (eth_estimateGas sample_bits (web3_init zero_mem 0 400) sample_addr sample_tx) ≠
      request_text 0 "eth_estimateGas" (txobject_text sample_addr sample_tx) := by
  decide

theorem txparam_emitted_zero_flags (F : tx_flag_bits) (sender : address_t) (tx : transaction_t) :
    txparam_emitted F sender tx 0 = txobject_text sender tx ++ ",\"latest\"".toList := by
  unfold txparam_emitted txobject_text
  cases tx.data with
  | none => simp
  | some d => simp

/-- C17 (amended): on a context whose capacity is a `size_t` and strictly
greater than the length of the request text, `eth_estimateGas` returns 0 and
its params array holds the transaction object with every field unsuppressed
(to, from, gas, gasPrice, value, and data when present and not empty),
followed by the block tag `"latest"` as a further element. -/
theorem estimateGas_emits_object_and_block_tag (F : tx_flag_bits) (st : State)
    (sender : address_t) (tx : transaction_t) (hsz : st.web3.buf_size < SIZE_MOD)
    (hfit : (request_text st.web3.req_id "eth_estimateGas"
      (txobject_text sender tx ++ ",\"latest\"".toList)).length < st.web3.buf_size) :
    Emits (eth_estimateGas F st sender tx)
      (request_text st.web3.req_id "eth_estimateGas"
        (txobject_text sender tx ++ ",\"latest\"".toList)) := by
  rw [← txparam_emitted_zero_flags F] at hfit ⊢
  refine built_output st _ _ ?_ hsz hfit
  rw [request_text_eq]
  refine preamble_ok _ _ _ _ fun s _ => ?_
  exact Ok.seq (txparam_ok _ _ _ _ _) fun s _ => terminator_ok s

/-- Witness of the amended C17: the sample transaction on a zeroed buffer of
capacity 400. -/
theorem estimateGas_emits_object_and_block_tag_witness :
    Emits (eth_estimateGas sample_bits (web3_init zero_mem 0 400) sample_addr sample_tx)
      (request_text 0 "eth_estimateGas"
        (txobject_text sample_addr sample_tx ++ ",\"latest\"".toList)) :=
  estimateGas_emits_object_and_block_tag sample_bits (web3_init zero_mem 0 400) sample_addr
    sample_tx (by decide) (by decide)

/-- C18: `__web3_printbuf` returns 0 or -1; when it returns -1 the cursor is
unchanged, and when it returns 0 the cursor has increased by exactly the
length of the complete text (the sum being a `size_t` value). -/
theorem printbuf_cursor_frame (st : State) (text : List Char) :
    ((__web3_printbuf st text).1 = 0 ∨ (__web3_printbuf st text).1 = -1) ∧
    ((__web3_printbuf st text).1 = -1 →
      (__web3_printbuf st text).2.web3.buf_used = st.web3.buf_used) ∧
    ((__web3_printbuf st text).1 = 0 → st.web3.buf_used + text.length < SIZE_MOD →
      (__web3_printbuf st text).2.web3.buf_used = st.web3.buf_used + text.length) := by
  refine ⟨printbuf_ret st text, ?_, ?_⟩
  · simp only [__web3_printbuf, vsnprintf_snd]
    split
    · intro _; rfl
    · intro h; simp at h
  · simp only [__web3_printbuf, vsnprintf_snd]
    split
    · intro h; simp at h
    · intro _ hnw; exact size_add_eq _ _ hnw

/-- Witness of C18: the tight context, where a text of length 5 moves the
cursor from 8 to 13. -/
theorem printbuf_cursor_frame_witness :
    (__web3_printbuf tight_state "abcde".toList).2.web3.buf_used =
      tight_state.web3.buf_used + "abcde".toList.length :=
  (printbuf_cursor_frame tight_state "abcde".toList).2.2 (by decide) (by decide)

/-- C19: `web3_init` leaves the context with the given buffer address and
capacity, cursor 0 and request id 0, and every byte of the buffer zero; the
memory outside the buffer is untouched. -/
theorem web3_init_state (m : Memory) (buf buf_size : Nat) :
    (web3_init m buf buf_size).web3.buf = buf ∧
    (web3_init m buf buf_size).web3.buf_size = buf_size ∧
    (web3_init m buf buf_size).web3.buf_used = 0 ∧
    (web3_init m buf buf_size).web3.req_id = 0 ∧
    (∀ i, i < buf_size → (web3_init m buf buf_size).mem (buf + i) = NUL) ∧
    (∀ a, a < buf ∨ buf + buf_size ≤ a → (web3_init m buf buf_size).mem a = m a) := by
  refine ⟨rfl, rfl, rfl, rfl, fun i hi => ?_, fun a ha => ?_⟩
  · simp only [web3_init, __web3_resetbuf, memset0]
    rw [if_pos ⟨by omega, by omega⟩]
  · simp only [web3_init, __web3_resetbuf, memset0]
    rw [if_neg (by omega)]

theorem builders_keep_frame (F : tx_flag_bits) (st : State) (addr : address_t)
    (data : List Nat) (tx_hash : tx_hash_t) (sender : address_t) (tx : transaction_t)
    (tx_flags : Nat) :
    Frame st (eth_getTransactionCount st addr).2 ∧
    Frame st (eth_blockNumber st).2 ∧
    Frame st (eth_sendRawTransaction st data).2 ∧
    Frame st (eth_getBalance st addr).2 ∧
    Frame st (eth_call F st sender tx tx_flags).2 ∧
    Frame st (eth_estimateGas F st sender tx).2 ∧
    Frame st (eth_getTransactionReceipt st tx_hash).2 :=
  ⟨(built_frame_tail st _ _ (getTransactionCount_step st addr)).1,
   (built_frame_tail st _ _ (blockNumber_step st)).1,
   (built_frame_tail st _ _ (sendRawTransaction_step st data)).1,
   (built_frame_tail st _ _ (getBalance_step st addr)).1,
   (built_frame_tail st _ _ (call_step F st sender tx tx_flags)).1,
   (built_frame_tail st _ _ (estimateGas_step F st sender tx)).1,
   (built_frame_tail st _ _ (getTransactionReceipt_step st tx_hash)).1⟩

/-- C20 (the code departs from the claim): after `web3_init` with capacity 62
on a memory full of the letter `Z`, `eth_getBalance` returns 0 and the context
keeps its capacity 62, yet the bytes at the indices 63 and 66, outside the
buffer, have changed from `Z` to hexadecimal characters of the address: more
than the buffer contents and the cursor has changed. -/
theorem getBalance_stores_outside_buffer :
    (eth_getBalance (web3_init z_mem 0 62) sample_addr).1 = 0 ∧
    (eth_getBalance (web3_init z_mem 0 62) sample_addr).2.web3.buf = 0 ∧
    (eth_getBalance (web3_init z_mem 0 62) sample_addr).2.web3.buf_size = 62 ∧
    (web3_init z_mem 0 62).mem 63 = 'Z' ∧
    (eth_getBalance (web3_init z_mem 0 62) sample_addr).2.mem 63 = '0' ∧
    (web3_init z_mem 0 62).mem 66 = 'Z' ∧
    (eth_getBalance (web3_init z_mem 0 62) sample_addr).2.mem 66 = '1' := by
  decide

end Web3
